import Mathlib

/-!
Verification of the information-schema catalog synthesis engine
(`backend/query/information_schema_catalog.cc`).

The development shallowly embeds the catalog builder: the schema object
graph consumed by the builder, the row-synthesis procedures for the
introspection tables the claims concern, and the default-row primitive
`GetRowFromRowKVs`.  Machine values (`zetasql::Value`) are modelled by an
inductive `Value` carrying its type tag, so that type-mismatch questions
are expressible.  Fallible paths (the `ZETASQL_CHECK` crash in
`GetRowFromRowKVs`, the fatal-log path of `GetColumnMetadata`) are
modelled with `Option`/`Except`.

The column-metadata registry (`info_schema_columns_metadata_values.h`)
and the metadata-driven table factory (`tables_from_metadata.h`) are not
part of the given source; fills that consume them are parameterised by
the registry contents and by the list of tables registered in the
catalog, and the shapes of the registry-driven tables (SCHEMATA, TABLES,
COLUMNS) are modelled from the spec (see their doc comments).
-/

namespace ISC

/-- Database dialect (`google::spanner::admin::database::v1::DatabaseDialect`);
only the two values the source branches on are modelled. -/
inductive DatabaseDialect
  | GOOGLE_STANDARD_SQL
  | POSTGRESQL
deriving DecidableEq, Repr

/-- The ZetaSQL type kinds the catalog code inspects (`zetasql::Type`):
string, int64, bool, timestamp, bytes, double and arrays thereof. -/
inductive ColType
  | string
  | int64
  | bool
  | timestamp
  | bytes
  | double
  | array (elem : ColType)
deriving DecidableEq, Repr

/-- A `zetasql::Value` as used by the catalog builder: a typed value or a
typed SQL NULL (`NullString`, `NullInt64`, `NullBytes`, ...). -/
inductive Value
  | str (s : String)
  | int (n : Int)
  | bool (b : Bool)
  | timestamp (t : Int)
  | null (t : ColType)
deriving DecidableEq, Repr

/-- The type of a value; a typed NULL has the type it was created with. -/
def Value.type : Value → ColType
  | .str _ => .string
  | .int _ => .int64
  | .bool _ => .bool
  | .timestamp _ => .timestamp
  | .null t => t

/-- ASCII lower-casing, as `absl::AsciiStrToLower` (ASCII letters only). -/
def asciiLower (s : String) : String := ⟨s.data.map Char.toLower⟩

/-- ASCII upper-casing, as `absl::AsciiStrToUpper` (ASCII letters only). -/
def asciiUpper (s : String) : String := ⟨s.data.map Char.toUpper⟩

-- Column/table name constants from the source file.
def kInformationSchema : String := "INFORMATION_SCHEMA"
def kTableCatalog : String := "TABLE_CATALOG"
def kTableSchema : String := "TABLE_SCHEMA"
def kTableName : String := "TABLE_NAME"
def kColumnName : String := "COLUMN_NAME"
def kOrdinalPosition : String := "ORDINAL_POSITION"
def kColumnDefault : String := "COLUMN_DEFAULT"
def kDataType : String := "DATA_TYPE"
def kIsNullable : String := "IS_NULLABLE"
def kSpannerType : String := "SPANNER_TYPE"
def kIsGenerated : String := "IS_GENERATED"
def kIsStored : String := "IS_STORED"
def kGenerationExpression : String := "GENERATION_EXPRESSION"
def kSpannerState : String := "SPANNER_STATE"
def kColumns : String := "COLUMNS"
def kSchemaName : String := "SCHEMA_NAME"
def kSchemata : String := "SCHEMATA"
def kTableType : String := "TABLE_TYPE"
def kParentTableName : String := "PARENT_TABLE_NAME"
def kOnDeleteAction : String := "ON_DELETE_ACTION"
def kRowDeletionPolicyExpression : String := "ROW_DELETION_POLICY_EXPRESSION"
def kTables : String := "TABLES"
def kPublic : String := "public"
def kBaseTable : String := "BASE TABLE"
def kCommitted : String := "COMMITTED"
def kInterleaveType : String := "INTERLEAVE_TYPE"
def kInParent : String := "IN PARENT"
def kView : String := "VIEW"
def kYes : String := "YES"
def kNo : String := "NO"
def kAlways : String := "ALWAYS"
def kNever : String := "NEVER"
def kPrimaryKey : String := "PRIMARY KEY"
def kConstraintCatalog : String := "CONSTRAINT_CATALOG"
def kConstraintSchema : String := "CONSTRAINT_SCHEMA"
def kConstraintName : String := "CONSTRAINT_NAME"
def kCheckClause : String := "CHECK_CLAUSE"
def kSpannerCommitTimestamp : String := "spanner.commit_timestamp"
def kConstraintType : String := "CONSTRAINT_TYPE"
def kIsDeferrable : String := "IS_DEFERRABLE"
def kInitiallyDeferred : String := "INITIALLY_DEFERRED"
def kEnforced : String := "ENFORCED"
def kCheck : String := "CHECK"
def kUnique : String := "UNIQUE"
def kForeignKey : String := "FOREIGN KEY"
def kTableConstraints : String := "TABLE_CONSTRAINTS"
def kCheckConstraints : String := "CHECK_CONSTRAINTS"
def kReferentialConstraints : String := "REFERENTIAL_CONSTRAINTS"
def kUniqueConstraintCatalog : String := "UNIQUE_CONSTRAINT_CATALOG"
def kUniqueConstraintSchema : String := "UNIQUE_CONSTRAINT_SCHEMA"
def kUniqueConstraintName : String := "UNIQUE_CONSTRAINT_NAME"
def kMatchOption : String := "MATCH_OPTION"
def kUpdateRule : String := "UPDATE_RULE"
def kDeleteRule : String := "DELETE_RULE"
def kSimple : String := "SIMPLE"
def kNoAction : String := "NO ACTION"
def kKeyColumnUsage : String := "KEY_COLUMN_USAGE"
def kConstraintColumnUsage : String := "CONSTRAINT_COLUMN_USAGE"
def kPositionInUniqueConstraint : String := "POSITION_IN_UNIQUE_CONSTRAINT"
def kCharacterMaximumLength : String := "CHARACTER_MAXIMUM_LENGTH"
def kNumericPrecision : String := "NUMERIC_PRECISION"
def kNumericPrecisionRadix : String := "NUMERIC_PRECISION_RADIX"
def kNumericScale : String := "NUMERIC_SCALE"
def kDoubleNumericPrecision : Int := 53
def kBigintNumericPrecision : Int := 64
def kDoubleNumericPrecisionRadix : Int := 2

/-- The `kGSQLTypeKindToDefaultValue` map: type-default values for the four
type kinds it contains; `.at` on any other kind throws (modelled `none`). -/
def kGSQLTypeKindToDefaultValue : ColType → Option Value
  | .string => some (.str "")
  | .int64 => some (.int 0)
  | .bool => some (.bool false)
  | .timestamp => some (.timestamp 0)
  | _ => none

/-- One entry of the static columns-metadata registry
(`ColumnsMetaEntry` of `info_schema_columns_metadata_values.h`, not under
the given sources).  Modelled from the spec: a static fact
`(table_name, column_name, spanner_type, is_nullable)` describing one
column of one introspection table. -/
structure ColumnsMetaEntry where
  table_name : String
  column_name : String
  spanner_type : String
  is_nullable : String
deriving DecidableEq, Repr

/-- One entry of the static index-columns metadata registry
(`IndexColumnsMetaEntry`, not under the given sources).  Modelled from
the spec: key-column facts for introspection tables, including the
ordinal of the column in the table's key. -/
structure IndexColumnsMetaEntry where
  table_name : String
  column_name : String
  column_ordering : String
  is_nullable : String
  spanner_type : String
  primary_key_ordinal : Int
deriving DecidableEq, Repr

/-- `IsNullable`: a metadata entry is nullable when its `is_nullable`
field equals `kYes`. -/
def IsNullable (column : ColumnsMetaEntry) : Bool :=
  column.is_nullable = kYes

/-- A user-schema column (`backend::Column`), with the attributes the
catalog builder reads. -/
structure Column where
  name : String
  type : ColType
  is_nullable : Bool
  is_generated : Bool
  has_default_value : Bool
  /-- The column's declarative expression text (generated expression or
  default expression); present whenever `is_generated` or
  `has_default_value` holds. -/
  expression : Option String
  declared_max_length : Option Int
  has_allows_commit_timestamp : Bool
deriving DecidableEq, Repr

/-- A key column of a table or index (`backend::KeyColumn`). -/
structure KeyColumn where
  column : Column
  is_descending : Bool
deriving DecidableEq, Repr

/-- A secondary index (`backend::Index`). -/
structure Index where
  name : String
  key_columns : List KeyColumn
  stored_columns : List Column
  is_unique : Bool
  is_null_filtered : Bool
  is_managed : Bool
deriving DecidableEq, Repr

/-- A foreign key (`backend::ForeignKey`).  `referenced_table` is kept by
name (the builder only reads its `Name()`); `referenced_index` is the
optional explicit backing unique index (`nullptr` when the foreign key is
backed by the referenced table's primary key). -/
structure ForeignKey where
  name : String
  referencing_columns : List Column
  referenced_columns : List Column
  referenced_table_name : String
  referenced_index : Option Index
deriving DecidableEq, Repr

/-- A check constraint (`backend::CheckConstraint`). -/
structure CheckConstraint where
  name : String
  expression : String
  dependent_columns : List Column
deriving DecidableEq, Repr

/-- A user-schema table (`backend::Table`).  `parent` is the name of the
interleaving parent, when any; `on_delete_action` and
`row_deletion_policy` are kept in their already-rendered string form
(the rendering helpers live in the schema printer, outside this
component). -/
structure Table where
  name : String
  columns : List Column
  primary_key : List KeyColumn
  indexes : List Index
  foreign_keys : List ForeignKey
  check_constraints : List CheckConstraint
  parent : Option String
  on_delete_action : String
  row_deletion_policy : Option String
deriving DecidableEq, Repr

/-- An output column of a view (`backend::View::Column`). -/
structure ViewColumn where
  name : String
  type : ColType
deriving DecidableEq, Repr

/-- A view (`backend::View`). -/
structure View where
  name : String
  body : String
  columns : List ViewColumn
deriving DecidableEq, Repr

/-- The validated schema snapshot consumed by the catalog builder. -/
structure Schema where
  tables : List Table
  views : List View
deriving DecidableEq, Repr

/-- A `zetasql::SimpleTable`: a name and an ordered list of
`(column name, column type)` definitions. -/
structure SimpleTable where
  name : String
  columns : List (String × ColType)
deriving DecidableEq, Repr

/-- `FindMetadata` over the columns-metadata registry: first entry whose
`(table_name, column_name)` matches, else none (the iterator end). -/
def FindColumnsMetadata (entries : List ColumnsMetaEntry)
    (table_name column_name : String) : Option ColumnsMetaEntry :=
  entries.find? fun e =>
    table_name = e.table_name && column_name = e.column_name

/-- `FindMetadata` over the index-columns metadata registry. -/
def FindIndexColumnsMetadata (entries : List IndexColumnsMetaEntry)
    (table_name column_name : String) : Option IndexColumnsMetaEntry :=
  entries.find? fun e =>
    table_name = e.table_name && column_name = e.column_name

/-- `GetColumnMetadata`: returns the registry entry for the pair, and on a
miss takes the fatal-log path (`ZETASQL_LOG(DFATAL)` followed by a
dereference of the end iterator), modelled as an error carrying the
diagnostic text built by the source. -/
def GetColumnMetadata (entries : List ColumnsMetaEntry)
    (table_name column_name : String) : Except String ColumnsMetaEntry :=
  match FindColumnsMetadata entries table_name column_name with
  | some m => .ok m
  | none =>
      .error ("Missing metadata for column " ++ table_name ++ "." ++ column_name)

/-- `FindKeyColumnMetadata`: pointer result, `nullptr` modelled as none. -/
def FindKeyColumnMetadata (entries : List IndexColumnsMetaEntry)
    (table_name column_name : String) : Option IndexColumnsMetaEntry :=
  FindIndexColumnsMetadata entries table_name column_name

/-- `PrimaryKeyName` (template over anything with a name). -/
def PrimaryKeyName (table_name : String) : String := "PK_" ++ table_name

/-- `CheckNotNullName`. -/
def CheckNotNullName (table_name column_name : String) : String :=
  "CK_IS_NOT_NULL_" ++ table_name ++ "_" ++ column_name

/-- `CheckNotNullClause`. -/
def CheckNotNullClause (column_name : String) : String :=
  column_name ++ " IS NOT NULL"

/-- `ForeignKeyReferencedIndexName`: the explicit backing index's name, or
`PK_<referenced table>` when the foreign key is backed by the referenced
table's primary key. -/
def ForeignKeyReferencedIndexName (foreign_key : ForeignKey) : String :=
  match foreign_key.referenced_index with
  | some idx => idx.name
  | none => PrimaryKeyName foreign_key.referenced_table_name

/-- `GetColumnsWithDefault`: the default value for each column of the
table, keyed by column name.  (The source stores these in a hash map; the
association list here agrees with it on lookups whenever the table's
column names are distinct, which holds for every introspection table.) -/
def GetColumnsWithDefault (table : SimpleTable) :
    Option (List (String × Value)) :=
  table.columns.mapM fun c =>
    (kGSQLTypeKindToDefaultValue c.2).map fun v => (c.1, v)

/-- `GetRowFromRowKVs`: one value per declared column, in declared order;
the override at the upper-cased column name when present, else the type
default.  The `ZETASQL_CHECK` that the override map holds no lower-cased
column name is modelled by returning none (crash), as is the throwing
`at` lookup for a type kind without a default. -/
def GetRowFromRowKVs (table : SimpleTable)
    (row_kvs : List (String × Value)) : Option (List Value) :=
  match GetColumnsWithDefault table with
  | none => none
  | some default_row_kvs =>
      table.columns.mapM fun column =>
        if (List.lookup (asciiLower column.1) row_kvs).isSome then
          none
        else
          match List.lookup (asciiUpper column.1) row_kvs with
          | some v => some v
          | none => List.lookup column.1 default_row_kvs

/-- `GetNameForDialect`: lower-cases the identifier for the PG dialect and
returns it unchanged for the ZetaSQL dialect. -/
def GetNameForDialect (dialect : DatabaseDialect) (name : String) : String :=
  match dialect with
  | .POSTGRESQL => asciiLower name
  | _ => name

/-- Modelled from the spec: the printer utility `ColumnTypeToString`
(`backend/schema/printer/print_ddl.h`, outside the given sources) renders
a column type and optional declared length as SQL type text. -/
def ColumnTypeToString (t : ColType) (max_length : Option Int) : String :=
  match t with
  | .string =>
      match max_length with
      | some n => "STRING(" ++ toString n ++ ")"
      | none => "STRING(MAX)"
  | .bytes =>
      match max_length with
      | some n => "BYTES(" ++ toString n ++ ")"
      | none => "BYTES(MAX)"
  | .int64 => "INT64"
  | .bool => "BOOL"
  | .timestamp => "TIMESTAMP"
  | .double => "FLOAT64"
  | .array e => "ARRAY<" ++ ColumnTypeToString e max_length ++ ">"

/-- `GetPGNumericPrecision`: 53 for double, 64 for int64, else NULL. -/
def GetPGNumericPrecision (t : ColType) : Value :=
  if t = .double then .int kDoubleNumericPrecision
  else if t = .int64 then .int kBigintNumericPrecision
  else .null .int64

/-- `GetPGNumericPrecisionRadix`: 2 for double or int64, else NULL. -/
def GetPGNumericPrecisionRadix (t : ColType) : Value :=
  if t = .double || t = .int64 then .int kDoubleNumericPrecisionRadix
  else .null .int64

/-- The generated-expression text with one surrounding pair of
parentheses stripped (`absl::ConsumePrefix` / `absl::ConsumeSuffix`). -/
def stripParens (s : String) : String :=
  let s1 := if s.startsWith "(" then s.drop 1 else s
  if s1.endsWith ")" then s1.dropRight 1 else s1

/-- Whether the zetasql type is an array (`Type::IsArray`). -/
def ColType.isArray : ColType → Bool
  | .array _ => true
  | _ => false

/-- Modelled from the spec: the shape of the registry-driven SCHEMATA
table (its column list comes from the columns-metadata registry, which is
outside the given sources). -/
def schemataShape : SimpleTable :=
  ⟨kSchemata, [("CATALOG_NAME", .string), (kSchemaName, .string),
               ("EFFECTIVE_TIMESTAMP", .timestamp)]⟩

/-- Modelled from the spec: the shape of the registry-driven TABLES
catalog table; its columns are the fields the tables-fill emits. -/
def tablesShape : SimpleTable :=
  ⟨kTables, [(kTableCatalog, .string), (kTableSchema, .string),
             (kTableName, .string), (kTableType, .string),
             (kParentTableName, .string), (kOnDeleteAction, .string),
             (kSpannerState, .string), (kInterleaveType, .string),
             (kRowDeletionPolicyExpression, .string)]⟩

/-- Modelled from the spec: the shape of the registry-driven COLUMNS
catalog table; its columns are the fields the columns-fill emits. -/
def columnsShape : SimpleTable :=
  ⟨kColumns, [(kTableCatalog, .string), (kTableSchema, .string),
              (kTableName, .string), (kColumnName, .string),
              (kOrdinalPosition, .int64), (kColumnDefault, .string),
              (kDataType, .string), (kIsNullable, .string),
              (kSpannerType, .string), (kIsGenerated, .string),
              (kGenerationExpression, .string), (kIsStored, .string),
              (kSpannerState, .string), (kCharacterMaximumLength, .int64),
              (kNumericPrecision, .int64), (kNumericPrecisionRadix, .int64),
              (kNumericScale, .int64)]⟩

/-- The shape declared by `AddKeyColumnUsageTable` (from the source). -/
def keyColumnUsageShape : SimpleTable :=
  ⟨kKeyColumnUsage, [(kConstraintCatalog, .string), (kConstraintSchema, .string),
                     (kConstraintName, .string), (kTableCatalog, .string),
                     (kTableSchema, .string), (kTableName, .string),
                     (kColumnName, .string), (kOrdinalPosition, .int64),
                     (kPositionInUniqueConstraint, .int64)]⟩

/-- The shape declared by `AddTableConstraintsTable` (from the source). -/
def tableConstraintsShape : SimpleTable :=
  ⟨kTableConstraints, [(kConstraintCatalog, .string), (kConstraintSchema, .string),
                       (kConstraintName, .string), (kTableCatalog, .string),
                       (kTableSchema, .string), (kTableName, .string),
                       (kConstraintType, .string), (kIsDeferrable, .string),
                       (kInitiallyDeferred, .string), (kEnforced, .string)]⟩

/-- The shape declared by `AddCheckConstraintsTable` (from the source). -/
def checkConstraintsShape : SimpleTable :=
  ⟨kCheckConstraints, [(kConstraintCatalog, .string), (kConstraintSchema, .string),
                       (kConstraintName, .string), (kCheckClause, .string),
                       (kSpannerState, .string)]⟩

/-- The shape declared by `AddReferentialConstraintsTable` (source). -/
def referentialConstraintsShape : SimpleTable :=
  ⟨kReferentialConstraints,
   [(kConstraintCatalog, .string), (kConstraintSchema, .string),
    (kConstraintName, .string), (kUniqueConstraintCatalog, .string),
    (kUniqueConstraintSchema, .string), (kUniqueConstraintName, .string),
    (kMatchOption, .string), (kUpdateRule, .string),
    (kDeleteRule, .string), (kSpannerState, .string)]⟩

/-- The shape declared by `AddConstraintColumnUsageTable` (source). -/
def constraintColumnUsageShape : SimpleTable :=
  ⟨kConstraintColumnUsage,
   [(kTableCatalog, .string), (kTableSchema, .string), (kTableName, .string),
    (kColumnName, .string), (kConstraintCatalog, .string),
    (kConstraintSchema, .string), (kConstraintName, .string)]⟩

/-- The named cell of a row laid out against a table's declared columns:
the value at the first column bearing the given name. -/
def rowCell (table : SimpleTable) (row : List Value) (col : String) :
    Option Value :=
  List.lookup col ((table.columns.map Prod.fst).zip row)

/-- The `specific_kvs` map built for one user table by `FillTablesTable`. -/
def tableRowKVs (dialect : DatabaseDialect) (t : Table) :
    List (String × Value) :=
  (match dialect with
   | .POSTGRESQL =>
       [(kTableSchema, .str kPublic),
        (kRowDeletionPolicyExpression, .null .string)]
   | _ =>
       [(kRowDeletionPolicyExpression,
         match t.row_deletion_policy with
         | some p => .str p
         | none => .null .string)]) ++
  [(kTableName, .str t.name),
   (kTableType, .str kBaseTable),
   (kParentTableName,
    match t.parent with
    | some p => .str p
    | none => .null .string),
   (kOnDeleteAction,
    match t.parent with
    | some _ => .str t.on_delete_action
    | none => .null .string),
   (kSpannerState, .str kCommitted),
   (kInterleaveType, .str kInParent)]

/-- The `specific_kvs` map built for one view by `FillTablesTable`. -/
def viewTableRowKVs (dialect : DatabaseDialect) (v : View) :
    List (String × Value) :=
  (match dialect with
   | .POSTGRESQL =>
       [(kTableSchema, .str kPublic), (kSpannerState, .null .string)]
   | _ => [(kSpannerState, .str kCommitted)]) ++
  [(kTableName, .str v.name),
   (kTableType, .str kView),
   (kParentTableName, .null .string),
   (kOnDeleteAction, .null .string),
   (kRowDeletionPolicyExpression, .null .string)]

/-- The `specific_kvs` map built for one information-schema table by
`FillTablesTable`. -/
def infoTableRowKVs (dialect : DatabaseDialect) (table_name : String) :
    List (String × Value) :=
  [(kTableSchema, .str (GetNameForDialect dialect kInformationSchema)),
   (kTableName, .str (GetNameForDialect dialect table_name)),
   (kTableType, .str kView),
   (kParentTableName, .null .string),
   (kOnDeleteAction, .null .string),
   (kSpannerState, .null .string),
   (kRowDeletionPolicyExpression, .null .string)]

/-- `FillTablesTable`: one row per user table, then per view, then per
table registered in the catalog, each synthesised through
`GetRowFromRowKVs` against the TABLES catalog shape. -/
def fillTablesTable (dialect : DatabaseDialect) (schema : Schema)
    (catalog_tables : List SimpleTable) : Option (List (List Value)) :=
  (schema.tables.map (tableRowKVs dialect) ++
   schema.views.map (viewTableRowKVs dialect) ++
   catalog_tables.map (fun st => infoTableRowKVs dialect st.name)).mapM
    (GetRowFromRowKVs tablesShape)

/-- The `specific_kvs` map built for one user-table column by
`FillColumnsTable` (`pos` is the running 1-based ordinal). -/
def columnRowKVs (dialect : DatabaseDialect) (t : Table) (c : Column)
    (pos : Int) : List (String × Value) :=
  (match dialect with
   | .POSTGRESQL =>
       [(kTableSchema, .str kPublic),
        (kColumnDefault, .null .string),
        (kDataType,
         if c.has_allows_commit_timestamp then .str kSpannerCommitTimestamp
         else .null .string),
        (kSpannerType,
         if c.has_allows_commit_timestamp then .str kSpannerCommitTimestamp
         else .null .string),
        (kCharacterMaximumLength,
         if !c.type.isArray && c.declared_max_length ≠ none then
           .int (c.declared_max_length.getD 0)
         else .null .int64),
        (kNumericPrecision, GetPGNumericPrecision c.type),
        (kNumericPrecisionRadix, GetPGNumericPrecisionRadix c.type),
        (kNumericScale, if c.type = .int64 then .int 0 else .null .int64),
        (kGenerationExpression, .null .string)]
   | _ =>
       [(kGenerationExpression,
         if c.is_generated then .str (stripParens (c.expression.getD ""))
         else .null .string),
        (kColumnDefault,
         if c.has_default_value then .str (c.expression.getD "")
         else .null .string),
        (kDataType, .null .string),
        (kSpannerType,
         .str (ColumnTypeToString c.type c.declared_max_length))]) ++
  [(kTableName, .str t.name),
   (kColumnName, .str c.name),
   (kOrdinalPosition, .int pos),
   (kIsNullable, .str (if c.is_nullable then kYes else kNo)),
   (kIsGenerated, .str (if c.is_generated then kAlways else kNever)),
   (kIsStored, if c.is_generated then .str kYes else .null .string),
   (kSpannerState, .str kCommitted)]

/-- The `specific_kvs` map built for one view output column by
`FillColumnsTable`. -/
def viewColumnRowKVs (dialect : DatabaseDialect) (v : View) (c : ViewColumn)
    (pos : Int) : List (String × Value) :=
  (match dialect with
   | .POSTGRESQL =>
       [(kTableSchema, .str kPublic),
        (kDataType, .null .string), (kSpannerType, .null .string),
        (kCharacterMaximumLength, .null .int64),
        (kNumericPrecision, GetPGNumericPrecision c.type),
        (kNumericPrecisionRadix, GetPGNumericPrecisionRadix c.type),
        (kNumericScale, if c.type = .int64 then .int 0 else .null .int64)]
   | _ =>
       [(kDataType, .null .string),
        (kSpannerType, .str (ColumnTypeToString c.type (some 0)))]) ++
  [(kTableName, .str v.name),
   (kColumnName, .str c.name),
   (kOrdinalPosition, .int pos),
   (kColumnDefault, .null .bytes),
   (kIsNullable, .str kYes),
   (kIsGenerated, .str kNever),
   (kGenerationExpression, .null .string),
   (kIsStored, .null .string),
   (kSpannerState, .str kCommitted)]

/-- The `specific_kvs` map built for one column of an information-schema
table by `FillColumnsTable`. -/
def infoColumnRowKVs (dialect : DatabaseDialect) (table_name : String)
    (col : String × ColType) (metadata : ColumnsMetaEntry) (pos : Int) :
    List (String × Value) :=
  (match dialect with
   | .POSTGRESQL =>
       [(kDataType, .null .string), (kSpannerType, .null .string),
        (kCharacterMaximumLength, .null .int64),
        (kNumericPrecision, GetPGNumericPrecision col.2),
        (kNumericPrecisionRadix, GetPGNumericPrecisionRadix col.2),
        (kNumericScale, if col.2 = .int64 then .int 0 else .null .int64)]
   | _ =>
       [(kDataType, .null .string),
        (kSpannerType, .str metadata.spanner_type)]) ++
  [(kTableSchema, .str (GetNameForDialect dialect kInformationSchema)),
   (kTableName, .str (GetNameForDialect dialect table_name)),
   (kColumnName, .str (GetNameForDialect dialect col.1)),
   (kOrdinalPosition, .int pos),
   (kColumnDefault, .null .bytes),
   (kIsNullable, .str metadata.is_nullable),
   (kIsGenerated, .str kNever),
   (kGenerationExpression, .null .string),
   (kIsStored, .null .string),
   (kSpannerState, .null .string)]

/-- The rows `FillColumnsTable` emits for one information-schema table:
one per column, gated by the (crashing) metadata lookup. -/
def infoColumnsRowsForTable (dialect : DatabaseDialect)
    (registry : List ColumnsMetaEntry) (st : SimpleTable) :
    Option (List (List Value)) :=
  st.columns.enum.mapM fun ic =>
    match GetColumnMetadata registry st.name ic.2.1 with
    | .error _ => none
    | .ok metadata =>
        GetRowFromRowKVs columnsShape
          (infoColumnRowKVs dialect st.name ic.2 metadata ((ic.1 : Int) + 1))

/-- `FillColumnsTable`: rows for every user-table column, then every view
output column, then every column of every table registered in the
catalog. -/
def fillColumnsTable (dialect : DatabaseDialect) (schema : Schema)
    (catalog_tables : List SimpleTable)
    (registry : List ColumnsMetaEntry) : Option (List (List Value)) := do
  let user_rows ←
    (schema.tables.flatMap fun t =>
      t.columns.enum.map fun ic =>
        columnRowKVs dialect t ic.2 ((ic.1 : Int) + 1)).mapM
      (GetRowFromRowKVs columnsShape)
  let view_rows ←
    (schema.views.flatMap fun v =>
      v.columns.enum.map fun ic =>
        viewColumnRowKVs dialect v ic.2 ((ic.1 : Int) + 1)).mapM
      (GetRowFromRowKVs columnsShape)
  let info_rows ←
    (catalog_tables.mapM (infoColumnsRowsForTable dialect registry)).map
      List.flatten
  pure (user_rows ++ view_rows ++ info_rows)

/-- `FillSchemataTable`: a row for the unnamed default schema (empty
string in GSQL, `public` in PG), then a row for the information schema. -/
def fillSchemataTable (dialect : DatabaseDialect) :
    Option (List (List Value)) := do
  let default_row ← GetRowFromRowKVs schemataShape
    (match dialect with
     | .POSTGRESQL => [(kSchemaName, .str kPublic)]
     | _ => [])
  let info_row ← GetRowFromRowKVs schemataShape
    [(kSchemaName, .str (GetNameForDialect dialect kInformationSchema))]
  pure [default_row, info_row]

/-- The CHECK_CONSTRAINTS row for a NOT NULL constraint of a user table. -/
def checkConstraintNotNullRow (t : Table) (c : Column) : List Value :=
  [.str "", .str "", .str (CheckNotNullName t.name c.name),
   .str (CheckNotNullClause c.name), .str kCommitted]

/-- The CHECK_CONSTRAINTS row for a declared check constraint. -/
def checkConstraintDeclaredRow (cc : CheckConstraint) : List Value :=
  [.str "", .str "", .str cc.name, .str cc.expression, .str kCommitted]

/-- The CHECK_CONSTRAINTS rows `FillCheckConstraintsTable` emits for one
information-schema table: one per non-nullable column, gated by the
(crashing) metadata lookup. -/
def infoCheckConstraintRows (registry : List ColumnsMetaEntry)
    (table_name : String) : List (String × ColType) →
    Option (List (List Value))
  | [] => some []
  | col :: rest =>
      match GetColumnMetadata registry table_name col.1 with
      | .error _ => none
      | .ok metadata => do
          let rs ← infoCheckConstraintRows registry table_name rest
          if IsNullable metadata then pure rs
          else
            pure ([.str "", .str kInformationSchema,
                   .str (CheckNotNullName table_name col.1),
                   .str (CheckNotNullClause col.1), .str kCommitted] :: rs)

/-- `FillCheckConstraintsTable`: per user table the NOT NULL rows then the
declared check-constraint rows, then the information-schema rows. -/
def fillCheckConstraintsTable (schema : Schema)
    (catalog_tables : List SimpleTable) (registry : List ColumnsMetaEntry) :
    Option (List (List Value)) := do
  let info_rows ←
    (catalog_tables.mapM fun st =>
      infoCheckConstraintRows registry st.name st.columns).map List.flatten
  pure ((schema.tables.flatMap fun t =>
          ((t.columns.filter fun c => !c.is_nullable).map
            (checkConstraintNotNullRow t)) ++
          (t.check_constraints.map checkConstraintDeclaredRow)) ++
        info_rows)

/-- One TABLE_CONSTRAINTS row (always `NO/NO/YES` for deferrability). -/
def tableConstraintRow (constraint_schema constraint_name table_schema
    table_name constraint_type : String) : List Value :=
  [.str "", .str constraint_schema, .str constraint_name,
   .str "", .str table_schema, .str table_name,
   .str constraint_type, .str kNo, .str kNo, .str kYes]

/-- The TABLE_CONSTRAINTS rows for one user table: primary key, NOT NULL
checks, declared checks, then foreign keys each followed by its backing
unique constraint when an explicit backing index exists. -/
def tableConstraintsUserRows (t : Table) : List (List Value) :=
  [tableConstraintRow "" (PrimaryKeyName t.name) "" t.name kPrimaryKey] ++
  ((t.columns.filter fun c => !c.is_nullable).map fun c =>
    tableConstraintRow "" (CheckNotNullName t.name c.name) "" t.name kCheck) ++
  (t.check_constraints.map fun cc =>
    tableConstraintRow "" cc.name "" t.name kCheck) ++
  (t.foreign_keys.flatMap fun fk =>
    [tableConstraintRow "" fk.name "" t.name kForeignKey] ++
    (match fk.referenced_index with
     | some idx =>
         [tableConstraintRow "" idx.name "" fk.referenced_table_name kUnique]
     | none => []))

/-- The TABLE_CONSTRAINTS NOT NULL rows for one information-schema table. -/
def infoTableConstraintRows (registry : List ColumnsMetaEntry)
    (table_name : String) : List (String × ColType) →
    Option (List (List Value))
  | [] => some []
  | col :: rest =>
      match GetColumnMetadata registry table_name col.1 with
      | .error _ => none
      | .ok metadata => do
          let rs ← infoTableConstraintRows registry table_name rest
          if IsNullable metadata then pure rs
          else
            pure (tableConstraintRow kInformationSchema
                    (CheckNotNullName table_name col.1) kInformationSchema
                    table_name kCheck :: rs)

/-- `FillTableConstraintsTable`: the user-table constraint rows, then per
information-schema table its primary-key row and NOT NULL rows. -/
def fillTableConstraintsTable (schema : Schema)
    (catalog_tables : List SimpleTable) (registry : List ColumnsMetaEntry) :
    Option (List (List Value)) := do
  let info_rows ←
    (catalog_tables.mapM fun st =>
      (infoTableConstraintRows registry st.name st.columns).map fun l =>
        tableConstraintRow kInformationSchema (PrimaryKeyName st.name)
          kInformationSchema st.name kPrimaryKey :: l).map List.flatten
  pure ((schema.tables.flatMap tableConstraintsUserRows) ++ info_rows)

/-- One REFERENTIAL_CONSTRAINTS row for a foreign key. -/
def referentialConstraintRow (fk : ForeignKey) : List Value :=
  [.str "", .str "", .str fk.name, .str "", .str "",
   .str (ForeignKeyReferencedIndexName fk),
   .str kSimple, .str kNoAction, .str kNoAction, .str kCommitted]

/-- `FillReferentialConstraintsTable`: one row per foreign key of every
user table. -/
def fillReferentialConstraintsTable (schema : Schema) : List (List Value) :=
  schema.tables.flatMap fun t =>
    t.foreign_keys.map referentialConstraintRow

/-- The KEY_COLUMN_USAGE row for one primary-key column of a user table.
The last cell is `NullString()` exactly as in the source, although the
column is declared with `Int64Type()`. -/
def pkKeyColumnUsageRow (t : Table) (kc : KeyColumn) (ordinal : Int) :
    List Value :=
  [.str "", .str "", .str (PrimaryKeyName t.name), .str "", .str "",
   .str t.name, .str kc.column.name, .int ordinal, .null .string]

/-- The KEY_COLUMN_USAGE row for one referencing column of a foreign key. -/
def fkKeyColumnUsageRow (t : Table) (fk : ForeignKey) (c : Column)
    (ordinal : Int) : List Value :=
  [.str "", .str "", .str fk.name, .str "", .str "", .str t.name,
   .str c.name, .int ordinal, .int ordinal]

/-- The KEY_COLUMN_USAGE rows for the key columns of a foreign key's
explicit backing index (none when the primary key backs it). -/
def fkIndexKeyColumnUsageRows (fk : ForeignKey) : List (List Value) :=
  match fk.referenced_index with
  | none => []
  | some idx =>
      idx.key_columns.enum.map fun ic =>
        [.str "", .str "", .str idx.name, .str "", .str "",
         .str fk.referenced_table_name, .str ic.2.column.name,
         .int ((ic.1 : Int) + 1), .null .int64]

/-- The KEY_COLUMN_USAGE rows for one information-schema table's key
columns, with the running ordinal used when the registry entry carries no
positive `primary_key_ordinal`; the last cell is `NullString()` as in the
source. -/
def infoKeyColumnUsageRows (registry : List IndexColumnsMetaEntry)
    (table_name : String) : List (String × ColType) → Int → List (List Value)
  | [], _ => []
  | col :: rest, ctr =>
      match FindKeyColumnMetadata registry table_name col.1 with
      | none => infoKeyColumnUsageRows registry table_name rest ctr
      | some m =>
          if m.primary_key_ordinal > 0 then
            [.str "", .str kInformationSchema,
             .str (PrimaryKeyName table_name), .str "",
             .str kInformationSchema, .str table_name, .str m.column_name,
             .int m.primary_key_ordinal, .null .string] ::
            infoKeyColumnUsageRows registry table_name rest ctr
          else
            [.str "", .str kInformationSchema,
             .str (PrimaryKeyName table_name), .str "",
             .str kInformationSchema, .str table_name, .str m.column_name,
             .int ctr, .null .string] ::
            infoKeyColumnUsageRows registry table_name rest (ctr + 1)

/-- `FillKeyColumnUsageTable`: per user table the primary-key rows, then
per foreign key its referencing-column rows followed by its backing-index
key-column rows; finally the information-schema key-column rows. -/
def fillKeyColumnUsageTable (schema : Schema)
    (catalog_tables : List SimpleTable)
    (registry : List IndexColumnsMetaEntry) : List (List Value) :=
  (schema.tables.flatMap fun t =>
    (t.primary_key.enum.map fun ic =>
      pkKeyColumnUsageRow t ic.2 ((ic.1 : Int) + 1)) ++
    (t.foreign_keys.flatMap fun fk =>
      (fk.referencing_columns.enum.map fun ic =>
        fkKeyColumnUsageRow t fk ic.2 ((ic.1 : Int) + 1)) ++
      fkIndexKeyColumnUsageRows fk)) ++
  (catalog_tables.flatMap fun st =>
    infoKeyColumnUsageRows registry st.name st.columns 1)

/-- One CONSTRAINT_COLUMN_USAGE row. -/
def constraintColumnUsageRow (table_schema table_name column_name
    constraint_schema constraint_name : String) : List Value :=
  [.str "", .str table_schema, .str table_name, .str column_name,
   .str "", .str constraint_schema, .str constraint_name]

/-- The CONSTRAINT_COLUMN_USAGE rows for one user table: primary-key
columns, NOT NULL columns, declared check constraints' dependent columns,
then per foreign key its referenced columns followed by its backing
index's key columns. -/
def constraintColumnUsageUserRows (t : Table) : List (List Value) :=
  (t.primary_key.map fun kc =>
    constraintColumnUsageRow "" t.name kc.column.name ""
      (PrimaryKeyName t.name)) ++
  ((t.columns.filter fun c => !c.is_nullable).map fun c =>
    constraintColumnUsageRow "" t.name c.name ""
      (CheckNotNullName t.name c.name)) ++
  (t.check_constraints.flatMap fun cc =>
    cc.dependent_columns.map fun dc =>
      constraintColumnUsageRow "" t.name dc.name "" cc.name) ++
  (t.foreign_keys.flatMap fun fk =>
    (fk.referenced_columns.map fun c =>
      constraintColumnUsageRow "" fk.referenced_table_name c.name ""
        fk.name) ++
    (match fk.referenced_index with
     | some idx =>
         idx.key_columns.map fun kc =>
           constraintColumnUsageRow "" fk.referenced_table_name
             kc.column.name "" idx.name
     | none => []))

/-- The CONSTRAINT_COLUMN_USAGE NOT NULL rows for one information-schema
table (the column-name cell comes from the registry entry). -/
def infoCcuNotNullRows (registry : List ColumnsMetaEntry)
    (table_name : String) : List (String × ColType) →
    Option (List (List Value))
  | [] => some []
  | col :: rest =>
      match GetColumnMetadata registry table_name col.1 with
      | .error _ => none
      | .ok metadata => do
          let rs ← infoCcuNotNullRows registry table_name rest
          if IsNullable metadata then pure rs
          else
            pure (constraintColumnUsageRow kInformationSchema table_name
                    metadata.column_name kInformationSchema
                    (CheckNotNullName table_name col.1) :: rs)

/-- `FillConstraintColumnUsageTable`: the user-table rows, then the
information-schema primary-key rows, then the information-schema NOT NULL
rows. -/
def fillConstraintColumnUsageTable (schema : Schema)
    (catalog_tables : List SimpleTable)
    (registry : List ColumnsMetaEntry)
    (index_registry : List IndexColumnsMetaEntry) :
    Option (List (List Value)) := do
  let info_not_null ←
    (catalog_tables.mapM fun st =>
      infoCcuNotNullRows registry st.name st.columns).map List.flatten
  pure ((schema.tables.flatMap constraintColumnUsageUserRows) ++
        (catalog_tables.flatMap fun st =>
          st.columns.filterMap fun col =>
            (FindKeyColumnMetadata index_registry st.name col.1).map fun m =>
              constraintColumnUsageRow kInformationSchema st.name
                m.column_name kInformationSchema (PrimaryKeyName st.name)) ++
        info_not_null)

/-- The TABLES catalog row produced for a user table (the synthesis
always succeeds on the TABLES shape; see `getRow_tablesUserRow`). -/
def tablesUserRow (dialect : DatabaseDialect) (t : Table) : List Value :=
  (GetRowFromRowKVs tablesShape (tableRowKVs dialect t)).getD []

/-- The TABLES catalog row produced for a view. -/
def tablesViewRow (dialect : DatabaseDialect) (v : View) : List Value :=
  (GetRowFromRowKVs tablesShape (viewTableRowKVs dialect v)).getD []

/-- The TABLES catalog row produced for an information-schema table. -/
def tablesInfoRow (dialect : DatabaseDialect) (table_name : String) :
    List Value :=
  (GetRowFromRowKVs tablesShape (infoTableRowKVs dialect table_name)).getD []

/-- The COLUMNS catalog row produced for a user-table column. -/
def columnsUserRow (dialect : DatabaseDialect) (t : Table) (c : Column)
    (pos : Int) : List Value :=
  (GetRowFromRowKVs columnsShape (columnRowKVs dialect t c pos)).getD []

/-- The COLUMNS catalog row produced for a view output column. -/
def columnsViewRow (dialect : DatabaseDialect) (v : View) (c : ViewColumn)
    (pos : Int) : List Value :=
  (GetRowFromRowKVs columnsShape (viewColumnRowKVs dialect v c pos)).getD []

/-- The COLUMNS catalog row produced for an information-schema column. -/
def columnsInfoRow (dialect : DatabaseDialect) (table_name : String)
    (col : String × ColType) (metadata : ColumnsMetaEntry) (pos : Int) :
    List Value :=
  (GetRowFromRowKVs columnsShape
    (infoColumnRowKVs dialect table_name col metadata pos)).getD []

/-- The value a column receives from `GetRowFromRowKVs` when no crash
occurs: the override looked up at the upper-cased column name, else the
type default. -/
def overrideOrDefault (row_kvs : List (String × Value))
    (p : String × ColType) : Value :=
  match List.lookup (asciiUpper p.1) row_kvs with
  | some v => v
  | none => (kGSQLTypeKindToDefaultValue p.2).getD (.str "")

/-- Concrete witness column: `id INT64`, nullable primary-key column. -/
def usersIdColumn : Column :=
  ⟨"id", .int64, true, false, false, none, none, false⟩

/-- Concrete witness column: `name STRING(50) NOT NULL`. -/
def usersNameColumn : Column :=
  ⟨"name", .string, false, false, false, none, some 50, false⟩

/-- Concrete witness table `Users(id, name)` with primary key `(id)`. -/
def usersTable : Table :=
  ⟨"Users", [usersIdColumn, usersNameColumn], [⟨usersIdColumn, false⟩],
   [], [], [], none, "", none⟩

/-- Concrete witness table `Accounts(id)` with primary key `(id)`. -/
def accountsTable : Table :=
  ⟨"Accounts", [usersIdColumn], [⟨usersIdColumn, false⟩],
   [], [], [], none, "", none⟩

/-- Concrete witness foreign key from `Orders` to `Accounts`, backed by
the referenced table's primary key (no explicit backing index). -/
def ordersForeignKey : ForeignKey :=
  ⟨"FK_OrdersAccounts", [usersIdColumn], [usersIdColumn], "Accounts", none⟩

/-- Concrete witness table `Orders(id)` with one foreign key. -/
def ordersTable : Table :=
  ⟨"Orders", [usersIdColumn], [⟨usersIdColumn, false⟩],
   [], [ordersForeignKey], [], none, "", none⟩

/-- Concrete witness schema holding `Users`. -/
def usersSchema : Schema := ⟨[usersTable], []⟩

/-- Concrete witness schema holding `Accounts` and `Orders`. -/
def ordersSchema : Schema := ⟨[accountsTable, ordersTable], []⟩

/-- Concrete column with a default expression, used to separate the two
dialects' COLUMNS rows. -/
def defaultedColumn : Column :=
  ⟨"c", .int64, true, false, true, some "1", none, false⟩

/-- Concrete table holding `defaultedColumn`. -/
def defaultedTable : Table :=
  ⟨"T", [defaultedColumn], [], [], [], [], none, "", none⟩

/-- Concrete schema holding `defaultedTable`. -/
def defaultedSchema : Schema := ⟨[defaultedTable], []⟩

/-- Concrete witness view `V` with one output column. -/
def witnessView : View := ⟨"V", "SELECT 1 AS x", [⟨"x", .int64⟩]⟩

/-- Concrete witness schema holding `Users` and the view `V`. -/
def usersViewSchema : Schema := ⟨[usersTable], [witnessView]⟩

/-! General list lemmas used by the claim proofs. -/

theorem mapM_opt_map_some {α β γ : Type} {f : β → Option γ} {g : α → β}
    {h : α → γ} {l : List α} (hf : ∀ x ∈ l, f (g x) = some (h x)) :
    (l.map g).mapM f = some (l.map h) := by
  induction l with
  | nil => rfl
  | cons x xs ih =>
      simp only [List.map_cons, List.mapM_cons, hf x (by simp),
        Option.bind_eq_bind, Option.some_bind,
        ih (fun y hy => hf y (by simp [hy])), Option.pure_def]

theorem mapM_opt_some_of_forall {α β : Type} {f : α → Option β}
    {h : α → β} {l : List α} (hf : ∀ x ∈ l, f x = some (h x)) :
    l.mapM f = some (l.map h) := by
  induction l with
  | nil => rfl
  | cons x xs ih =>
      simp only [List.map_cons, List.mapM_cons, hf x (by simp),
        Option.bind_eq_bind, Option.some_bind,
        ih (fun y hy => hf y (by simp [hy])), Option.pure_def]

theorem mapM_opt_getD_of_isSome {α β : Type} {f : α → Option β}
    {l : List α} (d0 : β) (hf : ∀ x ∈ l, (f x).isSome) :
    l.mapM f = some (l.map fun x => (f x).getD d0) := by
  refine mapM_opt_some_of_forall fun x hx => ?_
  obtain ⟨y, hy⟩ := Option.isSome_iff_exists.mp (hf x hx)
  simp [hy]

theorem mapM_opt_eq_none_of_mem {α β : Type} {f : α → Option β}
    {l : List α} {x : α} (hx : x ∈ l) (hfx : f x = none) :
    l.mapM f = none := by
  induction l with
  | nil => cases hx
  | cons y ys ih =>
      rw [List.mapM_cons]
      rcases List.mem_cons.mp hx with rfl | hmem
      · simp [hfx]
      · have h2 : ys.mapM f = none := ih hmem
        cases hy : f y with
        | none => simp [hy]
        | some z =>
            simp only [hy, Option.bind_eq_bind, Option.some_bind, h2,
              Option.none_bind]

theorem mapM_opt_backward {α β : Type} {f : α → Option β} {l : List α}
    {ys : List β} (h : l.mapM f = some ys) :
    ∀ y ∈ ys, ∃ x ∈ l, f x = some y := by
  induction l generalizing ys with
  | nil =>
      simp only [List.mapM_nil, Option.pure_def, Option.some.injEq] at h
      subst h; simp
  | cons x xs ih =>
      simp only [List.mapM_cons, Option.bind_eq_bind, Option.pure_def] at h
      rw [Option.bind_eq_some] at h
      obtain ⟨y0, hx, h⟩ := h
      rw [Option.bind_eq_some] at h
      obtain ⟨ys0, hxs, hpure⟩ := h
      have hys : ys = y0 :: ys0 := by
        have := hpure
        simp only [Option.some.injEq] at this
        exact this.symm
      subst hys
      intro y hy
      rcases List.mem_cons.mp hy with rfl | hmem
      · exact ⟨x, by simp, hx⟩
      · obtain ⟨x1, hx1, hfx1⟩ := ih hxs y hmem
        exact ⟨x1, by simp [hx1], hfx1⟩

theorem mapM_opt_forward {α β : Type} {f : α → Option β} {l : List α}
    {ys : List β} (h : l.mapM f = some ys) :
    ∀ x ∈ l, ∃ y ∈ ys, f x = some y := by
  induction l generalizing ys with
  | nil => simp
  | cons x xs ih =>
      simp only [List.mapM_cons, Option.bind_eq_bind, Option.pure_def] at h
      rw [Option.bind_eq_some] at h
      obtain ⟨y0, hx, h⟩ := h
      rw [Option.bind_eq_some] at h
      obtain ⟨ys0, hxs, hpure⟩ := h
      have hys : ys = y0 :: ys0 := by
        have := hpure
        simp only [Option.some.injEq] at this
        exact this.symm
      subst hys
      intro z hz
      rcases List.mem_cons.mp hz with rfl | hmem
      · exact ⟨y0, by simp, hx⟩
      · obtain ⟨y, hy, hfy⟩ := ih hxs z hmem
        exact ⟨y, by simp [hy], hfy⟩

theorem countP_eq_one_unique {α : Type} [DecidableEq α] {p : α → Bool}
    {l : List α} {a0 : α} (h0 : a0 ∈ l) (hp : p a0 = true)
    (hu : ∀ a ∈ l, p a = true → a = a0) (hnd : l.Nodup) :
    l.countP p = 1 := by
  have hc : l.countP p = l.countP (fun a => a == a0) := by
    refine List.countP_congr fun a ha => ?_
    constructor
    · intro hpa; simp [hu a ha hpa]
    · intro hb
      have : a = a0 := by simpa using hb
      simp [this, hp]
  rw [hc]
  have := List.count_eq_one_of_mem hnd h0
  simpa [List.count] using this

theorem countP_flatMap_unique {α β : Type} {l : List α} {f : α → List β}
    {p : β → Bool} {a0 : α} (h0 : a0 ∈ l) (hnd : l.Nodup)
    (hz : ∀ a ∈ l, a ≠ a0 → (f a).countP p = 0)
    (h1 : (f a0).countP p = 1) : (l.flatMap f).countP p = 1 := by
  induction l with
  | nil => cases h0
  | cons x xs ih =>
      rw [List.flatMap_cons, List.countP_append]
      rcases List.mem_cons.mp h0 with rfl | hmem
      · rw [h1]
        have hrest : (xs.flatMap f).countP p = 0 := by
          rw [List.countP_eq_zero]
          intro r hr
          obtain ⟨a, ha, hra⟩ := List.mem_flatMap.mp hr
          have hne : a ≠ a0 := by
            intro he
            exact (List.nodup_cons.mp hnd).1 (he ▸ ha)
          exact (List.countP_eq_zero.mp (hz a (by simp [ha]) hne)) r hra
        rw [hrest]
      · have hx0 : x ≠ a0 := by
          intro he
          exact (List.nodup_cons.mp hnd).1 (he ▸ hmem)
        rw [hz x (by simp) hx0]
        have := ih hmem (List.nodup_cons.mp hnd).2
          (fun a ha hne => hz a (by simp [ha]) hne)
        simpa using this

theorem countP_flatMap_zero {α β : Type} {l : List α} {f : α → List β}
    {p : β → Bool} (hz : ∀ a ∈ l, (f a).countP p = 0) :
    (l.flatMap f).countP p = 0 := by
  rw [List.countP_eq_zero]
  intro r hr
  obtain ⟨a, ha, hra⟩ := List.mem_flatMap.mp hr
  exact (List.countP_eq_zero.mp (hz a ha)) r hra

theorem pk_name_ne_ck_name (a b c : String) :
    PrimaryKeyName a ≠ CheckNotNullName b c := by
  intro h
  have hP : (PrimaryKeyName a).data.head? = some 'P' := rfl
  have hC : (CheckNotNullName b c).data.head? = some 'C' := rfl
  have h2 : some 'P' = some 'C' := by
    rw [← hP, ← hC, h]
  exact absurd h2 (by decide)

/-! Evaluation lemmas: the kv-driven synthesis always succeeds on the
modelled shapes and produces the named rows. -/

theorem getRow_tablesUserRow (d : DatabaseDialect) (t : Table) :
    GetRowFromRowKVs tablesShape (tableRowKVs d t) =
      some (tablesUserRow d t) := by
  cases d <;> rfl

theorem getRow_tablesViewRow (d : DatabaseDialect) (v : View) :
    GetRowFromRowKVs tablesShape (viewTableRowKVs d v) =
      some (tablesViewRow d v) := by
  cases d <;> rfl

theorem getRow_tablesInfoRow (d : DatabaseDialect) (n : String) :
    GetRowFromRowKVs tablesShape (infoTableRowKVs d n) =
      some (tablesInfoRow d n) := by
  cases d <;> rfl

theorem getRow_columnsUserRow (d : DatabaseDialect) (t : Table) (c : Column)
    (pos : Int) :
    GetRowFromRowKVs columnsShape (columnRowKVs d t c pos) =
      some (columnsUserRow d t c pos) := by
  cases d <;> rfl

theorem getRow_columnsViewRow (d : DatabaseDialect) (v : View)
    (c : ViewColumn) (pos : Int) :
    GetRowFromRowKVs columnsShape (viewColumnRowKVs d v c pos) =
      some (columnsViewRow d v c pos) := by
  cases d <;> rfl

theorem getRow_columnsInfoRow (d : DatabaseDialect) (n : String)
    (col : String × ColType) (m : ColumnsMetaEntry) (pos : Int) :
    GetRowFromRowKVs columnsShape (infoColumnRowKVs d n col m pos) =
      some (columnsInfoRow d n col m pos) := by
  cases d <;> rfl

/-! Cell lemmas for the synthesised rows. -/

theorem tablesUserRow_tableName (d : DatabaseDialect) (t : Table) :
    rowCell tablesShape (tablesUserRow d t) kTableName =
      some (.str t.name) := by
  cases d <;> rfl

theorem tablesUserRow_tableType (d : DatabaseDialect) (t : Table) :
    rowCell tablesShape (tablesUserRow d t) kTableType =
      some (.str kBaseTable) := by
  cases d <;> rfl

theorem tablesViewRow_tableType (d : DatabaseDialect) (v : View) :
    rowCell tablesShape (tablesViewRow d v) kTableType =
      some (.str kView) := by
  cases d <;> rfl

theorem tablesInfoRow_tableType (d : DatabaseDialect) (n : String) :
    rowCell tablesShape (tablesInfoRow d n) kTableType =
      some (.str kView) := by
  cases d <;> rfl

theorem columnsUserRow_tableName (d : DatabaseDialect) (t : Table)
    (c : Column) (pos : Int) :
    rowCell columnsShape (columnsUserRow d t c pos) kTableName =
      some (.str t.name) := by
  cases d <;> rfl

theorem columnsUserRow_columnName (d : DatabaseDialect) (t : Table)
    (c : Column) (pos : Int) :
    rowCell columnsShape (columnsUserRow d t c pos) kColumnName =
      some (.str c.name) := by
  cases d <;> rfl

theorem columnsUserRow_ordinal (d : DatabaseDialect) (t : Table)
    (c : Column) (pos : Int) :
    rowCell columnsShape (columnsUserRow d t c pos) kOrdinalPosition =
      some (.int pos) := by
  cases d <;> rfl

theorem columnsViewRow_tableName (d : DatabaseDialect) (v : View)
    (c : ViewColumn) (pos : Int) :
    rowCell columnsShape (columnsViewRow d v c pos) kTableName =
      some (.str v.name) := by
  cases d <;> rfl

theorem columnsViewRow_isNullable (d : DatabaseDialect) (v : View)
    (c : ViewColumn) (pos : Int) :
    rowCell columnsShape (columnsViewRow d v c pos) kIsNullable =
      some (.str kYes) := by
  cases d <;> rfl

theorem columnsViewRow_isGenerated (d : DatabaseDialect) (v : View)
    (c : ViewColumn) (pos : Int) :
    rowCell columnsShape (columnsViewRow d v c pos) kIsGenerated =
      some (.str kNever) := by
  cases d <;> rfl

theorem columnsViewRow_columnDefault (d : DatabaseDialect) (v : View)
    (c : ViewColumn) (pos : Int) :
    rowCell columnsShape (columnsViewRow d v c pos) kColumnDefault =
      some (.null .bytes) := by
  cases d <;> rfl

theorem columnsViewRow_isStored (d : DatabaseDialect) (v : View)
    (c : ViewColumn) (pos : Int) :
    rowCell columnsShape (columnsViewRow d v c pos) kIsStored =
      some (.null .string) := by
  cases d <;> rfl

theorem columnsInfoRow_tableName (d : DatabaseDialect) (n : String)
    (col : String × ColType) (m : ColumnsMetaEntry) (pos : Int) :
    rowCell columnsShape (columnsInfoRow d n col m pos) kTableName =
      some (.str (GetNameForDialect d n)) := by
  cases d <;> rfl

theorem getColumnsWithDefault_eq (table : SimpleTable)
    (hdef : ∀ p ∈ table.columns, (kGSQLTypeKindToDefaultValue p.2).isSome) :
    GetColumnsWithDefault table =
      some (table.columns.map fun c =>
        (c.1, (kGSQLTypeKindToDefaultValue c.2).getD (.str ""))) := by
  unfold GetColumnsWithDefault
  refine mapM_opt_some_of_forall fun c hc => ?_
  obtain ⟨v, hv⟩ := Option.isSome_iff_exists.mp (hdef c hc)
  simp [hv]

theorem lookup_map_defaults {cols : List (String × ColType)}
    {c : String × ColType} (hc : c ∈ cols)
    (hnd : (cols.map Prod.fst).Nodup) (g : ColType → Value) :
    List.lookup c.1 (cols.map fun x => (x.1, g x.2)) = some (g c.2) := by
  induction cols with
  | nil => cases hc
  | cons x xs ih =>
      rw [List.map_cons, List.nodup_cons] at hnd
      rcases List.mem_cons.mp hc with rfl | hmem
      · simp [List.lookup]
      · have hx1 : c.1 ≠ x.1 := by
          intro he
          exact hnd.1 (he ▸ List.mem_map_of_mem Prod.fst hmem)
        have hb : (c.1 == x.1) = false := by
          simpa using hx1
        simpa [List.lookup, hb] using ih hmem hnd.2

/-- C7: every value placed at an INT64-typed column position is INT64 or
an INT64-typed NULL.  The code violates this: the KEY_COLUMN_USAGE row
for a primary-key column carries a STRING-typed NULL (`NullString()`) at
POSITION_IN_UNIQUE_CONSTRAINT, whose declared type is `Int64Type()`; the
theorem evaluates the build at a one-table schema and exhibits the
mismatch. -/
theorem C7_key_column_usage_pk_row_type_mismatch :
    (fillKeyColumnUsageTable usersSchema [] []).head? =
      some (pkKeyColumnUsageRow usersTable ⟨usersIdColumn, false⟩ 1) ∧
    rowCell keyColumnUsageShape
      (pkKeyColumnUsageRow usersTable ⟨usersIdColumn, false⟩ 1)
      kPositionInUniqueConstraint = some (.null .string) ∧
    List.lookup kPositionInUniqueConstraint keyColumnUsageShape.columns =
      some .int64 ∧
    (Value.null .string).type ≠ ColType.int64 :=
  ⟨rfl, rfl, rfl, by decide⟩

/-- C8: looking up column metadata for a pair the registry does not
describe takes the fatal path carrying a diagnostic that names the
missing pair, and a successful lookup only ever returns a registry entry
that matches the pair — no default is ever substituted. -/
theorem C8_missing_metadata_is_fatal (registry : List ColumnsMetaEntry)
    (t c : String) :
    ((∀ e ∈ registry, ¬(t = e.table_name ∧ c = e.column_name)) →
      GetColumnMetadata registry t c =
        .error ("Missing metadata for column " ++ t ++ "." ++ c)) ∧
    (∀ e, GetColumnMetadata registry t c = .ok e →
      e ∈ registry ∧ t = e.table_name ∧ c = e.column_name) := by
  constructor
  · intro hmiss
    unfold GetColumnMetadata FindColumnsMetadata
    have : (registry.find? fun e =>
        t = e.table_name && c = e.column_name) = none := by
      rw [List.find?_eq_none]
      intro e he
      simpa using hmiss e he
    rw [this]
  · intro e he
    unfold GetColumnMetadata FindColumnsMetadata at he
    cases hf : registry.find? fun e =>
        t = e.table_name && c = e.column_name with
    | none => rw [hf] at he; cases he
    | some e0 =>
        rw [hf] at he
        have he0 : e0 = e := by
          simpa using he
        subst he0
        refine ⟨List.mem_of_find?_eq_some hf, ?_⟩
        have := List.find?_some hf
        simpa using this

/-- Witness for C8 at a concrete registry and a missing pair. -/
theorem C8_missing_metadata_is_fatal_witness :
    GetColumnMetadata [⟨"TABLES", "TABLE_NAME", "STRING(MAX)", "YES"⟩]
      "TABLES" "TABLE_CATALOG" =
      .error "Missing metadata for column TABLES.TABLE_CATALOG" :=
  (C8_missing_metadata_is_fatal
    [⟨"TABLES", "TABLE_NAME", "STRING(MAX)", "YES"⟩]
    "TABLES" "TABLE_CATALOG").1 (by decide)

/-- C9: in the default-row builder, override keys are matched against the
upper-cased form of each declared column name; a key equal to the
lower-cased form of any declared column name crashes the builder, and
otherwise every declared column receives, in declared order, its
override value or the type default. -/
theorem C9_default_row_builder_contract (table : SimpleTable)
    (row_kvs : List (String × Value))
    (hdef : ∀ p ∈ table.columns, (kGSQLTypeKindToDefaultValue p.2).isSome)
    (hnd : (table.columns.map Prod.fst).Nodup) :
    ((∃ p ∈ table.columns,
        (List.lookup (asciiLower p.1) row_kvs).isSome) →
      GetRowFromRowKVs table row_kvs = none) ∧
    ((∀ p ∈ table.columns,
        List.lookup (asciiLower p.1) row_kvs = none) →
      GetRowFromRowKVs table row_kvs =
        some (table.columns.map (overrideOrDefault row_kvs))) := by
  have hgd := getColumnsWithDefault_eq table hdef
  constructor
  · rintro ⟨p, hp, hlk⟩
    unfold GetRowFromRowKVs
    rw [hgd]
    refine mapM_opt_eq_none_of_mem hp ?_
    simp [hlk]
  · intro hnone
    unfold GetRowFromRowKVs
    rw [hgd]
    refine mapM_opt_some_of_forall fun p hp => ?_
    rw [hnone p hp]
    simp only [Option.isSome_none, Bool.false_eq_true, if_false]
    unfold overrideOrDefault
    cases hup : List.lookup (asciiUpper p.1) row_kvs with
    | some v => rfl
    | none =>
        exact lookup_map_defaults hp hnd
          (fun ty => (kGSQLTypeKindToDefaultValue ty).getD (.str ""))

/-- Witness for C9 at a concrete table and override map (the no-crash
branch, with one override and one defaulted column). -/
theorem C9_default_row_builder_contract_witness :
    GetRowFromRowKVs ⟨"T", [("COL_A", .string), ("COL_B", .int64)]⟩
      [("COL_A", .str "x")] = some [.str "x", .int 0] :=
  (C9_default_row_builder_contract
    ⟨"T", [("COL_A", .string), ("COL_B", .int64)]⟩
    [("COL_A", .str "x")] (by decide) (by decide)).2 (by decide)

/-- C3: the REFERENTIAL_CONSTRAINTS table holds exactly one row per
foreign key, carrying the foreign key's name, the resolved backing
unique-constraint name (the explicit backing index's name when one
exists, else `PK_<referenced table>`), match option SIMPLE and
NO ACTION update and delete rules. -/
theorem C3_referential_constraints_row (schema : Schema) (T : Table)
    (fk : ForeignKey) (hT : T ∈ schema.tables) (hfk : fk ∈ T.foreign_keys)
    (htnd : schema.tables.Nodup) (hfknd : T.foreign_keys.Nodup)
    (huniq : ∀ t ∈ schema.tables, ∀ g ∈ t.foreign_keys,
      g.name = fk.name → t = T ∧ g = fk) :
    (fillReferentialConstraintsTable schema).countP (fun r => decide
      (rowCell referentialConstraintsShape r kConstraintName =
         some (.str fk.name) ∧
       rowCell referentialConstraintsShape r kUniqueConstraintName =
         some (.str (ForeignKeyReferencedIndexName fk)) ∧
       rowCell referentialConstraintsShape r kMatchOption =
         some (.str kSimple) ∧
       rowCell referentialConstraintsShape r kUpdateRule =
         some (.str kNoAction) ∧
       rowCell referentialConstraintsShape r kDeleteRule =
         some (.str kNoAction))) = 1 ∧
    (∀ idx, fk.referenced_index = some idx →
      ForeignKeyReferencedIndexName fk = idx.name) ∧
    (fk.referenced_index = none →
      ForeignKeyReferencedIndexName fk =
        PrimaryKeyName fk.referenced_table_name) := by
  refine ⟨?_, ?_, ?_⟩
  · unfold fillReferentialConstraintsTable
    refine countP_flatMap_unique hT htnd ?_ ?_
    · intro t ht hne
      rw [List.countP_eq_zero]
      intro r hr
      obtain ⟨g, hg, rfl⟩ := List.mem_map.mp hr
      simp only [decide_eq_true_eq]
      rintro ⟨hname, -⟩
      have : g.name = fk.name := by
        have : rowCell referentialConstraintsShape
            (referentialConstraintRow g) kConstraintName =
            some (.str g.name) := rfl
        rw [this] at hname
        simpa using hname
      exact hne (huniq t ht g hg this).1
    · rw [List.countP_map]
      refine countP_eq_one_unique hfk ?_ ?_ hfknd
      · simp [Function.comp]
        refine ⟨rfl, rfl, rfl, rfl, rfl⟩
      · intro g hg hpg
        simp only [Function.comp, decide_eq_true_eq] at hpg
        have : g.name = fk.name := by
          have hc : rowCell referentialConstraintsShape
              (referentialConstraintRow g) kConstraintName =
              some (.str g.name) := rfl
          rw [hc] at hpg
          have := hpg.1
          simpa using this
        exact (huniq T hT g hg this).2
  · intro idx hidx
    simp [ForeignKeyReferencedIndexName, hidx]
  · intro hnone
    simp [ForeignKeyReferencedIndexName, hnone]

/-- Witness for C3 at the concrete `ordersSchema` (a primary-key-backed
foreign key). -/
theorem C3_referential_constraints_row_witness :
    (fillReferentialConstraintsTable ordersSchema).countP (fun r => decide
      (rowCell referentialConstraintsShape r kConstraintName =
         some (.str ordersForeignKey.name) ∧
       rowCell referentialConstraintsShape r kUniqueConstraintName =
         some (.str (ForeignKeyReferencedIndexName ordersForeignKey)) ∧
       rowCell referentialConstraintsShape r kMatchOption =
         some (.str kSimple) ∧
       rowCell referentialConstraintsShape r kUpdateRule =
         some (.str kNoAction) ∧
       rowCell referentialConstraintsShape r kDeleteRule =
         some (.str kNoAction))) = 1 :=
  (C3_referential_constraints_row ordersSchema ordersTable ordersForeignKey
    (by decide) (by decide) (by decide) (by decide) (by decide)).1

/-- C4: the KEY_COLUMN_USAGE rows for a foreign key's referencing columns
carry ordinal_position `i + 1` and position_in_unique_constraint `i + 1`
for the column declared at 0-based position `i`, in declaration order. -/
theorem C4_fk_key_column_usage_ordinals (schema : Schema)
    (catalog_tables : List SimpleTable)
    (registry : List IndexColumnsMetaEntry) (T : Table) (fk : ForeignKey)
    (hT : T ∈ schema.tables) (hfk : fk ∈ T.foreign_keys) :
    ∀ i (hi : i < fk.referencing_columns.length),
      fkKeyColumnUsageRow T fk (fk.referencing_columns[i]) ((i : Int) + 1) ∈
        fillKeyColumnUsageTable schema catalog_tables registry ∧
      rowCell keyColumnUsageShape
        (fkKeyColumnUsageRow T fk (fk.referencing_columns[i]) ((i : Int) + 1))
        kConstraintName = some (.str fk.name) ∧
      rowCell keyColumnUsageShape
        (fkKeyColumnUsageRow T fk (fk.referencing_columns[i]) ((i : Int) + 1))
        kColumnName = some (.str (fk.referencing_columns[i]).name) ∧
      rowCell keyColumnUsageShape
        (fkKeyColumnUsageRow T fk (fk.referencing_columns[i]) ((i : Int) + 1))
        kOrdinalPosition = some (.int ((i : Int) + 1)) ∧
      rowCell keyColumnUsageShape
        (fkKeyColumnUsageRow T fk (fk.referencing_columns[i]) ((i : Int) + 1))
        kPositionInUniqueConstraint = some (.int ((i : Int) + 1)) := by
  intro i hi
  refine ⟨?_, rfl, rfl, rfl, rfl⟩
  unfold fillKeyColumnUsageTable
  refine List.mem_append_left _ ?_
  refine List.mem_flatMap.mpr ⟨T, hT, ?_⟩
  refine List.mem_append_right _ ?_
  refine List.mem_flatMap.mpr ⟨fk, hfk, ?_⟩
  refine List.mem_append_left _ ?_
  refine List.mem_map.mpr ⟨(i, fk.referencing_columns[i]), ?_, rfl⟩
  rw [List.mem_enum_iff_getElem?]
  exact List.getElem?_eq_getElem hi

/-- Witness for C4 at the concrete `ordersSchema`. -/
theorem C4_fk_key_column_usage_ordinals_witness :
    fkKeyColumnUsageRow ordersTable ordersForeignKey usersIdColumn 1 ∈
      fillKeyColumnUsageTable ordersSchema [] [] :=
  ((C4_fk_key_column_usage_ordinals ordersSchema [] [] ordersTable
    ordersForeignKey (by decide) (by decide)) 0 (by decide)).1

theorem mapM_opt_append_some {α β : Type} {f : α → Option β}
    {l1 l2 : List α} {a b : List β} (h1 : l1.mapM f = some a)
    (h2 : l2.mapM f = some b) : (l1 ++ l2).mapM f = some (a ++ b) := by
  rw [List.mapM_append, h1, h2]
  rfl

theorem mapM_opt_flatMap_some {α β γ : Type} {f : β → Option γ}
    {g : α → List β} {h : α → List γ} {l : List α}
    (hfg : ∀ a ∈ l, (g a).mapM f = some (h a)) :
    (l.flatMap g).mapM f = some (l.flatMap h) := by
  induction l with
  | nil => rfl
  | cons x xs ih =>
      rw [List.flatMap_cons, List.flatMap_cons]
      exact mapM_opt_append_some (hfg x (by simp))
        (ih fun a ha => hfg a (by simp [ha]))

theorem fillTablesTable_eq (d : DatabaseDialect) (schema : Schema)
    (cats : List SimpleTable) :
    fillTablesTable d schema cats =
      some (schema.tables.map (tablesUserRow d) ++
            schema.views.map (tablesViewRow d) ++
            cats.map fun st => tablesInfoRow d st.name) := by
  unfold fillTablesTable
  have hA := mapM_opt_map_some (l := schema.tables)
    (fun t _ => getRow_tablesUserRow d t)
  have hB := mapM_opt_map_some (l := schema.views)
    (fun v _ => getRow_tablesViewRow d v)
  have hC := mapM_opt_map_some (l := cats)
    (fun st _ => getRow_tablesInfoRow d st.name)
  exact mapM_opt_append_some (mapM_opt_append_some hA hB) hC

/-- C1: for every table of the schema, the synthesized TABLES catalog
holds exactly one row whose TABLE_NAME is the table's name and whose
TABLE_TYPE is `BASE TABLE` (view rows and information-schema rows carry
TABLE_TYPE `VIEW`). -/
theorem C1_tables_catalog_unique_row (d : DatabaseDialect) (schema : Schema)
    (cats : List SimpleTable) (T : Table) (rows : List (List Value))
    (hT : T ∈ schema.tables)
    (hnd : (schema.tables.map Table.name).Nodup)
    (hrows : fillTablesTable d schema cats = some rows) :
    rows.countP (fun r => decide
      (rowCell tablesShape r kTableName = some (.str T.name) ∧
       rowCell tablesShape r kTableType = some (.str kBaseTable))) = 1 := by
  have heq := fillTablesTable_eq d schema cats
  rw [hrows] at heq
  have hrw : rows = schema.tables.map (tablesUserRow d) ++
      schema.views.map (tablesViewRow d) ++
      cats.map fun st => tablesInfoRow d st.name := Option.some.inj heq
  subst hrw
  rw [List.countP_append, List.countP_append]
  have h1 : (schema.tables.map (tablesUserRow d)).countP (fun r => decide
      (rowCell tablesShape r kTableName = some (.str T.name) ∧
       rowCell tablesShape r kTableType = some (.str kBaseTable))) = 1 := by
    rw [List.countP_map]
    refine countP_eq_one_unique hT ?_ ?_ (List.Nodup.of_map _ hnd)
    · simp [Function.comp, tablesUserRow_tableName, tablesUserRow_tableType]
    · intro t ht hp
      simp only [Function.comp, tablesUserRow_tableName,
        tablesUserRow_tableType, decide_eq_true_eq, Option.some.injEq,
        Value.str.injEq] at hp
      exact List.inj_on_of_nodup_map hnd ht hT hp.1
  have h2 : (schema.views.map (tablesViewRow d)).countP (fun r => decide
      (rowCell tablesShape r kTableName = some (.str T.name) ∧
       rowCell tablesShape r kTableType = some (.str kBaseTable))) = 0 := by
    rw [List.countP_eq_zero]
    intro r hr
    obtain ⟨v, hv, rfl⟩ := List.mem_map.mp hr
    simp only [decide_eq_true_eq]
    rintro ⟨-, htype⟩
    rw [tablesViewRow_tableType] at htype
    exact absurd htype (by decide)
  have h3 : (cats.map fun st => tablesInfoRow d st.name).countP
      (fun r => decide
        (rowCell tablesShape r kTableName = some (.str T.name) ∧
         rowCell tablesShape r kTableType = some (.str kBaseTable))) = 0 := by
    rw [List.countP_eq_zero]
    intro r hr
    obtain ⟨st, hst, rfl⟩ := List.mem_map.mp hr
    simp only [decide_eq_true_eq]
    rintro ⟨-, htype⟩
    rw [tablesInfoRow_tableType] at htype
    exact absurd htype (by decide)
  rw [h1, h2, h3]

/-- Witness for C1 at the concrete `usersViewSchema` (one table, one
view) in the native dialect. -/
theorem C1_tables_catalog_unique_row_witness :
    ((fillTablesTable .GOOGLE_STANDARD_SQL usersViewSchema []).getD
      []).countP (fun r => decide
      (rowCell tablesShape r kTableName = some (.str usersTable.name) ∧
       rowCell tablesShape r kTableType = some (.str kBaseTable))) = 1 :=
  C1_tables_catalog_unique_row .GOOGLE_STANDARD_SQL usersViewSchema []
    usersTable _ (by decide) (by decide) (by decide)

theorem fillColumnsTable_decomp (d : DatabaseDialect) (schema : Schema)
    (cats : List SimpleTable) (registry : List ColumnsMetaEntry)
    (rows : List (List Value))
    (h : fillColumnsTable d schema cats registry = some rows) :
    ∃ info_rows,
      rows = (schema.tables.flatMap fun t =>
               t.columns.enum.map fun ic =>
                 columnsUserRow d t ic.2 ((ic.1 : Int) + 1)) ++
             (schema.views.flatMap fun v =>
               v.columns.enum.map fun ic =>
                 columnsViewRow d v ic.2 ((ic.1 : Int) + 1)) ++ info_rows ∧
      ∀ r ∈ info_rows, ∃ st ∈ cats, ∃ ic ∈ st.columns.enum, ∃ m,
        r = columnsInfoRow d st.name ic.2 m ((ic.1 : Int) + 1) := by
  have hU : (schema.tables.flatMap fun t =>
      t.columns.enum.map fun ic =>
        columnRowKVs d t ic.2 ((ic.1 : Int) + 1)).mapM
      (GetRowFromRowKVs columnsShape) =
      some (schema.tables.flatMap fun t =>
        t.columns.enum.map fun ic =>
          columnsUserRow d t ic.2 ((ic.1 : Int) + 1)) :=
    mapM_opt_flatMap_some fun t _ =>
      mapM_opt_map_some fun ic _ =>
        getRow_columnsUserRow d t ic.2 ((ic.1 : Int) + 1)
  have hV : (schema.views.flatMap fun v =>
      v.columns.enum.map fun ic =>
        viewColumnRowKVs d v ic.2 ((ic.1 : Int) + 1)).mapM
      (GetRowFromRowKVs columnsShape) =
      some (schema.views.flatMap fun v =>
        v.columns.enum.map fun ic =>
          columnsViewRow d v ic.2 ((ic.1 : Int) + 1)) :=
    mapM_opt_flatMap_some fun v _ =>
      mapM_opt_map_some fun ic _ =>
        getRow_columnsViewRow d v ic.2 ((ic.1 : Int) + 1)
  unfold fillColumnsTable at h
  rw [hU] at h
  simp only [Option.bind_eq_bind, Option.some_bind] at h
  rw [hV] at h
  simp only [Option.some_bind] at h
  cases hZ : cats.mapM (infoColumnsRowsForTable d registry) with
  | none => rw [hZ] at h; cases h
  | some ls =>
      rw [hZ] at h
      replace h : some ((schema.tables.flatMap fun t =>
          t.columns.enum.map fun ic =>
            columnsUserRow d t ic.2 ((ic.1 : Int) + 1)) ++
          (schema.views.flatMap fun v =>
            v.columns.enum.map fun ic =>
              columnsViewRow d v ic.2 ((ic.1 : Int) + 1)) ++
          ls.flatten) = some rows := h
      refine ⟨ls.flatten, (Option.some.inj h).symm, ?_⟩
      intro r hr
      obtain ⟨l, hl, hrl⟩ := List.mem_flatten.mp hr
      obtain ⟨st, hst, hfst⟩ := mapM_opt_backward hZ l hl
      obtain ⟨ic, hic, hmic⟩ := mapM_opt_backward hfst r hrl
      refine ⟨st, hst, ic, hic, ?_⟩
      cases hm : GetColumnMetadata registry st.name ic.2.1 with
      | error e => rw [hm] at hmic; cases hmic
      | ok m =>
          rw [hm] at hmic
          replace hmic : GetRowFromRowKVs columnsShape
              (infoColumnRowKVs d st.name ic.2 m ((ic.1 : Int) + 1)) =
              some r := hmic
          rw [getRow_columnsInfoRow] at hmic
          exact ⟨m, (Option.some.inj hmic).symm⟩

/-- C5: for every column of every user table, declared at 0-based index
`i`, the COLUMNS catalog holds exactly one row with the table's name,
the column's name and ordinal position `i + 1`. -/
theorem C5_columns_catalog_unique_row (d : DatabaseDialect)
    (schema : Schema) (cats : List SimpleTable)
    (registry : List ColumnsMetaEntry) (T : Table) (i : Nat)
    (rows : List (List Value))
    (hT : T ∈ schema.tables) (hi : i < T.columns.length)
    (hnd : (schema.tables.map Table.name).Nodup)
    (hviews : ∀ v ∈ schema.views, v.name ≠ T.name)
    (hcats : ∀ st ∈ cats, GetNameForDialect d st.name ≠ T.name)
    (hrows : fillColumnsTable d schema cats registry = some rows) :
    rows.countP (fun r => decide
      (rowCell columnsShape r kTableName = some (.str T.name) ∧
       rowCell columnsShape r kColumnName =
         some (.str (T.columns[i]).name) ∧
       rowCell columnsShape r kOrdinalPosition =
         some (.int ((i : Int) + 1)))) = 1 := by
  obtain ⟨info_rows, hrw, hinfo⟩ :=
    fillColumnsTable_decomp d schema cats registry rows hrows
  subst hrw
  rw [List.countP_append, List.countP_append]
  have h1 : (schema.tables.flatMap fun t =>
      t.columns.enum.map fun ic =>
        columnsUserRow d t ic.2 ((ic.1 : Int) + 1)).countP (fun r => decide
      (rowCell columnsShape r kTableName = some (.str T.name) ∧
       rowCell columnsShape r kColumnName =
         some (.str (T.columns[i]).name) ∧
       rowCell columnsShape r kOrdinalPosition =
         some (.int ((i : Int) + 1)))) = 1 := by
    refine countP_flatMap_unique hT (List.Nodup.of_map _ hnd) ?_ ?_
    · intro t ht hne
      rw [List.countP_eq_zero]
      intro r hr
      obtain ⟨ic, hic, rfl⟩ := List.mem_map.mp hr
      simp only [decide_eq_true_eq]
      rintro ⟨hname, -, -⟩
      rw [columnsUserRow_tableName] at hname
      have : t.name = T.name := by simpa using hname
      exact hne (List.inj_on_of_nodup_map hnd ht hT this)
    · rw [List.countP_map]
      have hmem : (i, T.columns[i]) ∈ T.columns.enum := by
        rw [List.mem_enum_iff_getElem?]
        exact List.getElem?_eq_getElem hi
      refine countP_eq_one_unique hmem ?_ ?_ ?_
      · simp [Function.comp, columnsUserRow_tableName,
          columnsUserRow_columnName, columnsUserRow_ordinal]
      · intro ic hic hp
        simp only [Function.comp, columnsUserRow_tableName,
          columnsUserRow_columnName, columnsUserRow_ordinal,
          decide_eq_true_eq, Option.some.injEq, Value.str.injEq,
          Value.int.injEq] at hp
        have hfst : ic.1 = i := by
          have := hp.2.2
          omega
        have hsnd : ic.2 = T.columns[i] := by
          have hget := List.mem_enum_iff_getElem?.mp hic
          rw [hfst] at hget
          rw [List.getElem?_eq_getElem hi] at hget
          exact (Option.some.inj hget).symm
        calc ic = (ic.1, ic.2) := rfl
          _ = (i, T.columns[i]) := by rw [hfst, hsnd]
      · have : (T.columns.enum.map Prod.fst).Nodup := by
          rw [List.enum_map_fst]
          exact List.nodup_range _
        exact List.Nodup.of_map _ this
  have h2 : (schema.views.flatMap fun v =>
      v.columns.enum.map fun ic =>
        columnsViewRow d v ic.2 ((ic.1 : Int) + 1)).countP (fun r => decide
      (rowCell columnsShape r kTableName = some (.str T.name) ∧
       rowCell columnsShape r kColumnName =
         some (.str (T.columns[i]).name) ∧
       rowCell columnsShape r kOrdinalPosition =
         some (.int ((i : Int) + 1)))) = 0 := by
    refine countP_flatMap_zero fun v hv => ?_
    rw [List.countP_eq_zero]
    intro r hr
    obtain ⟨ic, hic, rfl⟩ := List.mem_map.mp hr
    simp only [decide_eq_true_eq]
    rintro ⟨hname, -, -⟩
    rw [columnsViewRow_tableName] at hname
    have : v.name = T.name := by simpa using hname
    exact hviews v hv this
  have h3 : info_rows.countP (fun r => decide
      (rowCell columnsShape r kTableName = some (.str T.name) ∧
       rowCell columnsShape r kColumnName =
         some (.str (T.columns[i]).name) ∧
       rowCell columnsShape r kOrdinalPosition =
         some (.int ((i : Int) + 1)))) = 0 := by
    rw [List.countP_eq_zero]
    intro r hr
    obtain ⟨st, hst, ic, hic, m, rfl⟩ := hinfo r hr
    simp only [decide_eq_true_eq]
    rintro ⟨hname, -, -⟩
    rw [columnsInfoRow_tableName] at hname
    have : GetNameForDialect d st.name = T.name := by simpa using hname
    exact hcats st hst this
  rw [h1, h2, h3]

/-- Witness for C5 at the concrete `usersViewSchema` (column `name` of
`Users` at 0-based index 1). -/
theorem C5_columns_catalog_unique_row_witness :
    ((fillColumnsTable .GOOGLE_STANDARD_SQL usersViewSchema [] []).getD
      []).countP (fun r => decide
      (rowCell columnsShape r kTableName = some (.str usersTable.name) ∧
       rowCell columnsShape r kColumnName =
         some (.str usersNameColumn.name) ∧
       rowCell columnsShape r kOrdinalPosition = some (.int 2))) = 1 :=
  C5_columns_catalog_unique_row .GOOGLE_STANDARD_SQL usersViewSchema [] []
    usersTable 1 _ (by decide) (by decide) (by decide) (by decide)
    (by decide) (by decide)

/-- C10: the COLUMNS catalog row synthesized for every view output
column reports IS_NULLABLE `YES`, IS_GENERATED `NEVER`, a SQL-NULL
COLUMN_DEFAULT and a SQL-NULL IS_STORED, for every dialect, view and
column type. -/
theorem C10_view_columns_rows (d : DatabaseDialect) (schema : Schema)
    (cats : List SimpleTable) (registry : List ColumnsMetaEntry)
    (v : View) (i : Nat) (rows : List (List Value))
    (hv : v ∈ schema.views) (hi : i < v.columns.length)
    (hrows : fillColumnsTable d schema cats registry = some rows) :
    ∃ r ∈ rows,
      GetRowFromRowKVs columnsShape
        (viewColumnRowKVs d v (v.columns[i]) ((i : Int) + 1)) = some r ∧
      rowCell columnsShape r kIsNullable = some (.str kYes) ∧
      rowCell columnsShape r kIsGenerated = some (.str kNever) ∧
      rowCell columnsShape r kColumnDefault = some (.null .bytes) ∧
      rowCell columnsShape r kIsStored = some (.null .string) := by
  obtain ⟨info_rows, hrw, -⟩ :=
    fillColumnsTable_decomp d schema cats registry rows hrows
  subst hrw
  refine ⟨columnsViewRow d v (v.columns[i]) ((i : Int) + 1), ?_,
    getRow_columnsViewRow d v (v.columns[i]) ((i : Int) + 1),
    columnsViewRow_isNullable d v (v.columns[i]) ((i : Int) + 1),
    columnsViewRow_isGenerated d v (v.columns[i]) ((i : Int) + 1),
    columnsViewRow_columnDefault d v (v.columns[i]) ((i : Int) + 1),
    columnsViewRow_isStored d v (v.columns[i]) ((i : Int) + 1)⟩
  refine List.mem_append_left _ (List.mem_append_right _ ?_)
  refine List.mem_flatMap.mpr ⟨v, hv, ?_⟩
  refine List.mem_map.mpr ⟨(i, v.columns[i]), ?_, rfl⟩
  rw [List.mem_enum_iff_getElem?]
  exact List.getElem?_eq_getElem hi

/-- Witness for C10 at the concrete `usersViewSchema` and its view `V`. -/
theorem C10_view_columns_rows_witness :
    ∃ r ∈ (fillColumnsTable .GOOGLE_STANDARD_SQL usersViewSchema [] []).getD
      [],
      GetRowFromRowKVs columnsShape
        (viewColumnRowKVs .GOOGLE_STANDARD_SQL witnessView ⟨"x", .int64⟩ 1) =
        some r ∧
      rowCell columnsShape r kIsNullable = some (.str kYes) ∧
      rowCell columnsShape r kIsGenerated = some (.str kNever) ∧
      rowCell columnsShape r kColumnDefault = some (.null .bytes) ∧
      rowCell columnsShape r kIsStored = some (.null .string) :=
  C10_view_columns_rows .GOOGLE_STANDARD_SQL usersViewSchema [] []
    witnessView 0 _ (by decide) (by decide) (by decide)

/-- C6 counterexample: it is not the case that, besides the schema-name
column, the user-table row content of the COLUMNS catalog is equal
between the two dialect builds — on a schema whose single column carries
a default expression, COLUMN_DEFAULT is the expression text in the
native build and a SQL NULL in the PG build. -/
theorem C6_dialect_counterexample :
    ¬ (∀ rowsG rowsP : List (List Value),
        fillColumnsTable .GOOGLE_STANDARD_SQL defaultedSchema [] [] =
          some rowsG →
        fillColumnsTable .POSTGRESQL defaultedSchema [] [] = some rowsP →
        ∀ col : String, col ≠ kTableSchema →
          rowsG.map (fun r => rowCell columnsShape r col) =
          rowsP.map (fun r => rowCell columnsShape r col)) := by
  intro hclaim
  have hG : fillColumnsTable .GOOGLE_STANDARD_SQL defaultedSchema [] [] =
      some ((fillColumnsTable .GOOGLE_STANDARD_SQL defaultedSchema
        [] []).getD []) := by decide
  have hP : fillColumnsTable .POSTGRESQL defaultedSchema [] [] =
      some ((fillColumnsTable .POSTGRESQL defaultedSchema [] []).getD
        []) := by decide
  have hcol := hclaim _ _ hG hP kColumnDefault (by decide)
  exact absurd hcol (by decide)

theorem columnsUserRow_isNullable (d : DatabaseDialect) (t : Table)
    (c : Column) (pos : Int) :
    rowCell columnsShape (columnsUserRow d t c pos) kIsNullable =
      some (.str (if c.is_nullable then kYes else kNo)) := by
  cases d <;> rfl

theorem columnsUserRow_isGenerated (d : DatabaseDialect) (t : Table)
    (c : Column) (pos : Int) :
    rowCell columnsShape (columnsUserRow d t c pos) kIsGenerated =
      some (.str (if c.is_generated then kAlways else kNever)) := by
  cases d <;> rfl

/-- C6 as amended: the PG build reports schema name `public` and
lower-cases identifiers through the dialect choke point, the native
build reports schema name `""` and leaves the (upper-case canonical)
identifiers unchanged, and the dialect-independent fields of user-table
COLUMNS rows (table name, column name, ordinal position, nullability,
generated flag) are equal between the builds — but dialect-conditional
fields such as COLUMN_DEFAULT may differ (see the counterexample). -/
theorem C6_dialect_toggle_amended :
    ((fillSchemataTable .POSTGRESQL).bind fun rows =>
       rows.head?.bind fun r => rowCell schemataShape r kSchemaName) =
      some (.str kPublic) ∧
    ((fillSchemataTable .GOOGLE_STANDARD_SQL).bind fun rows =>
       rows.head?.bind fun r => rowCell schemataShape r kSchemaName) =
      some (.str "") ∧
    (∀ s, GetNameForDialect .POSTGRESQL s = asciiLower s) ∧
    (∀ s, GetNameForDialect .GOOGLE_STANDARD_SQL s = s) ∧
    (∀ (t : Table) (c : Column) (pos : Int),
      ∀ col ∈ [kTableName, kColumnName, kOrdinalPosition, kIsNullable,
               kIsGenerated],
        rowCell columnsShape (columnsUserRow .POSTGRESQL t c pos) col =
        rowCell columnsShape
          (columnsUserRow .GOOGLE_STANDARD_SQL t c pos) col) := by
  refine ⟨rfl, rfl, fun s => rfl, fun s => rfl, ?_⟩
  intro t c pos col hcol
  simp only [List.mem_cons, List.not_mem_nil, or_false] at hcol
  rcases hcol with rfl | rfl | rfl | rfl | rfl
  · rw [columnsUserRow_tableName, columnsUserRow_tableName]
  · rw [columnsUserRow_columnName, columnsUserRow_columnName]
  · rw [columnsUserRow_ordinal, columnsUserRow_ordinal]
  · rw [columnsUserRow_isNullable, columnsUserRow_isNullable]
  · rw [columnsUserRow_isGenerated, columnsUserRow_isGenerated]

/-- Witness for the amended C6 at a concrete table, column and field. -/
theorem C6_dialect_toggle_amended_witness :
    rowCell columnsShape
      (columnsUserRow .POSTGRESQL defaultedTable defaultedColumn 1)
      kIsNullable =
    rowCell columnsShape
      (columnsUserRow .GOOGLE_STANDARD_SQL defaultedTable defaultedColumn 1)
      kIsNullable :=
  C6_dialect_toggle_amended.2.2.2.2 defaultedTable defaultedColumn 1
    kIsNullable (by decide)

/-! Cell lemmas for the hand-built constraint rows. -/

theorem checkConstraintNotNullRow_name (t : Table) (c : Column) :
    rowCell checkConstraintsShape (checkConstraintNotNullRow t c)
      kConstraintName = some (.str (CheckNotNullName t.name c.name)) := rfl

theorem checkConstraintNotNullRow_clause (t : Table) (c : Column) :
    rowCell checkConstraintsShape (checkConstraintNotNullRow t c)
      kCheckClause = some (.str (CheckNotNullClause c.name)) := rfl

theorem checkConstraintDeclaredRow_name (cc : CheckConstraint) :
    rowCell checkConstraintsShape (checkConstraintDeclaredRow cc)
      kConstraintName = some (.str cc.name) := rfl

theorem tableConstraintRow_name (cs cn ts tn ct : String) :
    rowCell tableConstraintsShape (tableConstraintRow cs cn ts tn ct)
      kConstraintName = some (.str cn) := rfl

theorem tableConstraintRow_type (cs cn ts tn ct : String) :
    rowCell tableConstraintsShape (tableConstraintRow cs cn ts tn ct)
      kConstraintType = some (.str ct) := rfl

theorem constraintColumnUsageRow_name (ts tn cn cs con : String) :
    rowCell constraintColumnUsageShape
      (constraintColumnUsageRow ts tn cn cs con) kConstraintName =
      some (.str con) := rfl

theorem constraintColumnUsageRow_column (ts tn cn cs con : String) :
    rowCell constraintColumnUsageShape
      (constraintColumnUsageRow ts tn cn cs con) kColumnName =
      some (.str cn) := rfl

/-! Shape lemmas for the information-schema segments of the constraint
fills. -/

theorem infoCheckConstraintRows_mem (registry : List ColumnsMetaEntry)
    (tname : String) (cols : List (String × ColType))
    (l : List (List Value))
    (h : infoCheckConstraintRows registry tname cols = some l) :
    ∀ r ∈ l, ∃ col ∈ cols,
      r = [.str "", .str kInformationSchema,
           .str (CheckNotNullName tname col.1),
           .str (CheckNotNullClause col.1), .str kCommitted] := by
  induction cols generalizing l with
  | nil =>
      have hl : some ([] : List (List Value)) = some l := h
      rw [← Option.some.inj hl]
      intro r hr
      cases hr
  | cons col rest ih =>
      replace h : (match GetColumnMetadata registry tname col.1 with
        | .error _ => (none : Option (List (List Value)))
        | .ok metadata =>
            (infoCheckConstraintRows registry tname rest).bind fun rs =>
              if IsNullable metadata then some rs
              else
                some ([.str "", .str kInformationSchema,
                       .str (CheckNotNullName tname col.1),
                       .str (CheckNotNullClause col.1),
                       .str kCommitted] :: rs)) = some l := h
      cases hm : GetColumnMetadata registry tname col.1 with
      | error e => rw [hm] at h; cases h
      | ok m =>
          rw [hm] at h
          simp only [Option.bind_eq_some] at h
          obtain ⟨rs, hrec, hif⟩ := h
          cases hnul : IsNullable m with
          | true =>
              rw [hnul] at hif
              simp only [if_true, Option.some.injEq] at hif
              subst hif
              intro r hr
              obtain ⟨col1, hc1, he⟩ := ih rs hrec r hr
              exact ⟨col1, by simp [hc1], he⟩
          | false =>
              rw [hnul] at hif
              simp only [Bool.false_eq_true, if_false,
                Option.some.injEq] at hif
              subst hif
              intro r hr
              rcases List.mem_cons.mp hr with rfl | hmem
              · exact ⟨col, by simp, rfl⟩
              · obtain ⟨col1, hc1, he⟩ := ih rs hrec r hmem
                exact ⟨col1, by simp [hc1], he⟩

theorem infoTableConstraintRows_mem (registry : List ColumnsMetaEntry)
    (tname : String) (cols : List (String × ColType))
    (l : List (List Value))
    (h : infoTableConstraintRows registry tname cols = some l) :
    ∀ r ∈ l, ∃ col ∈ cols,
      r = tableConstraintRow kInformationSchema
            (CheckNotNullName tname col.1) kInformationSchema tname
            kCheck := by
  induction cols generalizing l with
  | nil =>
      have hl : some ([] : List (List Value)) = some l := h
      rw [← Option.some.inj hl]
      intro r hr
      cases hr
  | cons col rest ih =>
      replace h : (match GetColumnMetadata registry tname col.1 with
        | .error _ => (none : Option (List (List Value)))
        | .ok metadata =>
            (infoTableConstraintRows registry tname rest).bind fun rs =>
              if IsNullable metadata then some rs
              else
                some (tableConstraintRow kInformationSchema
                        (CheckNotNullName tname col.1) kInformationSchema
                        tname kCheck :: rs)) = some l := h
      cases hm : GetColumnMetadata registry tname col.1 with
      | error e => rw [hm] at h; cases h
      | ok m =>
          rw [hm] at h
          simp only [Option.bind_eq_some] at h
          obtain ⟨rs, hrec, hif⟩ := h
          cases hnul : IsNullable m with
          | true =>
              rw [hnul] at hif
              simp only [if_true, Option.some.injEq] at hif
              subst hif
              intro r hr
              obtain ⟨col1, hc1, he⟩ := ih rs hrec r hr
              exact ⟨col1, by simp [hc1], he⟩
          | false =>
              rw [hnul] at hif
              simp only [Bool.false_eq_true, if_false,
                Option.some.injEq] at hif
              subst hif
              intro r hr
              rcases List.mem_cons.mp hr with rfl | hmem
              · exact ⟨col, by simp, rfl⟩
              · obtain ⟨col1, hc1, he⟩ := ih rs hrec r hmem
                exact ⟨col1, by simp [hc1], he⟩

theorem infoCcuNotNullRows_mem (registry : List ColumnsMetaEntry)
    (tname : String) (cols : List (String × ColType))
    (l : List (List Value))
    (h : infoCcuNotNullRows registry tname cols = some l) :
    ∀ r ∈ l, ∃ col ∈ cols, ∃ m : ColumnsMetaEntry,
      r = constraintColumnUsageRow kInformationSchema tname m.column_name
            kInformationSchema (CheckNotNullName tname col.1) := by
  induction cols generalizing l with
  | nil =>
      have hl : some ([] : List (List Value)) = some l := h
      rw [← Option.some.inj hl]
      intro r hr
      cases hr
  | cons col rest ih =>
      replace h : (match GetColumnMetadata registry tname col.1 with
        | .error _ => (none : Option (List (List Value)))
        | .ok metadata =>
            (infoCcuNotNullRows registry tname rest).bind fun rs =>
              if IsNullable metadata then some rs
              else
                some (constraintColumnUsageRow kInformationSchema tname
                        metadata.column_name kInformationSchema
                        (CheckNotNullName tname col.1) :: rs)) = some l := h
      cases hm : GetColumnMetadata registry tname col.1 with
      | error e => rw [hm] at h; cases h
      | ok m =>
          rw [hm] at h
          simp only [Option.bind_eq_some] at h
          obtain ⟨rs, hrec, hif⟩ := h
          cases hnul : IsNullable m with
          | true =>
              rw [hnul] at hif
              simp only [if_true, Option.some.injEq] at hif
              subst hif
              intro r hr
              obtain ⟨col1, hc1, m1, he⟩ := ih rs hrec r hr
              exact ⟨col1, by simp [hc1], m1, he⟩
          | false =>
              rw [hnul] at hif
              simp only [Bool.false_eq_true, if_false,
                Option.some.injEq] at hif
              subst hif
              intro r hr
              rcases List.mem_cons.mp hr with rfl | hmem
              · exact ⟨col, by simp, m, rfl⟩
              · obtain ⟨col1, hc1, m1, he⟩ := ih rs hrec r hmem
                exact ⟨col1, by simp [hc1], m1, he⟩

/-! Decomposition lemmas for the three constraint fills. -/

theorem fillCheckConstraintsTable_decomp (schema : Schema)
    (cats : List SimpleTable) (registry : List ColumnsMetaEntry)
    (rows : List (List Value))
    (h : fillCheckConstraintsTable schema cats registry = some rows) :
    ∃ info_rows,
      rows = (schema.tables.flatMap fun t =>
          ((t.columns.filter fun c => !c.is_nullable).map
            (checkConstraintNotNullRow t)) ++
          (t.check_constraints.map checkConstraintDeclaredRow)) ++
        info_rows ∧
      ∀ r ∈ info_rows, ∃ st ∈ cats, ∃ col ∈ st.columns,
        r = [.str "", .str kInformationSchema,
             .str (CheckNotNullName st.name col.1),
             .str (CheckNotNullClause col.1), .str kCommitted] := by
  unfold fillCheckConstraintsTable at h
  cases hZ : cats.mapM (fun st =>
      infoCheckConstraintRows registry st.name st.columns) with
  | none => rw [hZ] at h; cases h
  | some ls =>
      rw [hZ] at h
      replace h : some ((schema.tables.flatMap fun t =>
          ((t.columns.filter fun c => !c.is_nullable).map
            (checkConstraintNotNullRow t)) ++
          (t.check_constraints.map checkConstraintDeclaredRow)) ++
          ls.flatten) = some rows := h
      refine ⟨ls.flatten, (Option.some.inj h).symm, ?_⟩
      intro r hr
      obtain ⟨l, hl, hrl⟩ := List.mem_flatten.mp hr
      obtain ⟨st, hst, hfst⟩ := mapM_opt_backward hZ l hl
      obtain ⟨col, hcol, he⟩ :=
        infoCheckConstraintRows_mem registry st.name st.columns l hfst r hrl
      exact ⟨st, hst, col, hcol, he⟩

theorem fillTableConstraintsTable_decomp (schema : Schema)
    (cats : List SimpleTable) (registry : List ColumnsMetaEntry)
    (rows : List (List Value))
    (h : fillTableConstraintsTable schema cats registry = some rows) :
    ∃ info_rows,
      rows = (schema.tables.flatMap tableConstraintsUserRows) ++
        info_rows ∧
      ∀ r ∈ info_rows, ∃ st ∈ cats,
        r = tableConstraintRow kInformationSchema (PrimaryKeyName st.name)
              kInformationSchema st.name kPrimaryKey ∨
        ∃ col ∈ st.columns,
          r = tableConstraintRow kInformationSchema
                (CheckNotNullName st.name col.1) kInformationSchema
                st.name kCheck := by
  unfold fillTableConstraintsTable at h
  cases hZ : cats.mapM (fun st =>
      (infoTableConstraintRows registry st.name st.columns).map fun l =>
        tableConstraintRow kInformationSchema (PrimaryKeyName st.name)
          kInformationSchema st.name kPrimaryKey :: l) with
  | none => rw [hZ] at h; cases h
  | some ls =>
      rw [hZ] at h
      replace h : some ((schema.tables.flatMap tableConstraintsUserRows) ++
          ls.flatten) = some rows := h
      refine ⟨ls.flatten, (Option.some.inj h).symm, ?_⟩
      intro r hr
      obtain ⟨l, hl, hrl⟩ := List.mem_flatten.mp hr
      obtain ⟨st, hst, hfst⟩ := mapM_opt_backward hZ l hl
      cases hrec : infoTableConstraintRows registry st.name st.columns with
      | none => rw [hrec] at hfst; cases hfst
      | some l0 =>
          rw [hrec] at hfst
          simp only [Option.map_some', Option.some.injEq] at hfst
          subst hfst
          rcases List.mem_cons.mp hrl with rfl | hmem
          · exact ⟨st, hst, Or.inl rfl⟩
          · obtain ⟨col, hcol, he⟩ := infoTableConstraintRows_mem registry
              st.name st.columns l0 hrec r hmem
            exact ⟨st, hst, Or.inr ⟨col, hcol, he⟩⟩

theorem fillConstraintColumnUsageTable_decomp (schema : Schema)
    (cats : List SimpleTable) (registry : List ColumnsMetaEntry)
    (index_registry : List IndexColumnsMetaEntry)
    (rows : List (List Value))
    (h : fillConstraintColumnUsageTable schema cats registry
      index_registry = some rows) :
    ∃ info_nn,
      rows = (schema.tables.flatMap constraintColumnUsageUserRows) ++
        (cats.flatMap fun st =>
          st.columns.filterMap fun col =>
            (FindKeyColumnMetadata index_registry st.name col.1).map fun m =>
              constraintColumnUsageRow kInformationSchema st.name
                m.column_name kInformationSchema
                (PrimaryKeyName st.name)) ++ info_nn ∧
      ∀ r ∈ info_nn, ∃ st ∈ cats, ∃ col ∈ st.columns,
        ∃ m : ColumnsMetaEntry,
          r = constraintColumnUsageRow kInformationSchema st.name
                m.column_name kInformationSchema
                (CheckNotNullName st.name col.1) := by
  unfold fillConstraintColumnUsageTable at h
  cases hZ : cats.mapM (fun st =>
      infoCcuNotNullRows registry st.name st.columns) with
  | none => rw [hZ] at h; cases h
  | some ls =>
      rw [hZ] at h
      replace h : some ((schema.tables.flatMap
          constraintColumnUsageUserRows) ++
        (cats.flatMap fun st =>
          st.columns.filterMap fun col =>
            (FindKeyColumnMetadata index_registry st.name col.1).map fun m =>
              constraintColumnUsageRow kInformationSchema st.name
                m.column_name kInformationSchema
                (PrimaryKeyName st.name)) ++ ls.flatten) = some rows := h
      refine ⟨ls.flatten, (Option.some.inj h).symm, ?_⟩
      intro r hr
      obtain ⟨l, hl, hrl⟩ := List.mem_flatten.mp hr
      obtain ⟨st, hst, hfst⟩ := mapM_opt_backward hZ l hl
      obtain ⟨col, hcol, m, he⟩ :=
        infoCcuNotNullRows_mem registry st.name st.columns l hfst r hrl
      exact ⟨st, hst, col, hcol, m, he⟩

theorem checkConstraints_not_null_unique (schema : Schema)
    (cats : List SimpleTable) (registry : List ColumnsMetaEntry)
    (T : Table) (C : Column) (rows : List (List Value))
    (hT : T ∈ schema.tables) (hC : C ∈ T.columns)
    (hnn : C.is_nullable = false)
    (hnd : (schema.tables.map Table.name).Nodup)
    (hcolnd : (T.columns.map Column.name).Nodup)
    (hinj : ∀ t ∈ schema.tables, ∀ c ∈ t.columns,
      CheckNotNullName t.name c.name = CheckNotNullName T.name C.name →
      t.name = T.name ∧ c.name = C.name)
    (hdecl : ∀ t ∈ schema.tables, ∀ cc ∈ t.check_constraints,
      cc.name ≠ CheckNotNullName T.name C.name)
    (hcats : ∀ st ∈ cats, ∀ col ∈ st.columns,
      CheckNotNullName st.name col.1 ≠ CheckNotNullName T.name C.name)
    (hrows : fillCheckConstraintsTable schema cats registry = some rows) :
    rows.countP (fun r => decide
      (rowCell checkConstraintsShape r kConstraintName =
         some (.str (CheckNotNullName T.name C.name)) ∧
       rowCell checkConstraintsShape r kCheckClause =
         some (.str (CheckNotNullClause C.name)))) = 1 := by
  obtain ⟨info_rows, hrw, hinfo⟩ :=
    fillCheckConstraintsTable_decomp schema cats registry rows hrows
  subst hrw
  rw [List.countP_append]
  have hdecl0 : ∀ t ∈ schema.tables,
      (t.check_constraints.map checkConstraintDeclaredRow).countP
        (fun r => decide
          (rowCell checkConstraintsShape r kConstraintName =
             some (.str (CheckNotNullName T.name C.name)) ∧
           rowCell checkConstraintsShape r kCheckClause =
             some (.str (CheckNotNullClause C.name)))) = 0 := by
    intro t ht
    rw [List.countP_eq_zero]
    intro r hr
    obtain ⟨cc, hcc, rfl⟩ := List.mem_map.mp hr
    simp only [decide_eq_true_eq]
    rintro ⟨h1, -⟩
    rw [checkConstraintDeclaredRow_name] at h1
    have h2 : cc.name = CheckNotNullName T.name C.name := by simpa using h1
    exact hdecl t ht cc hcc h2
  have huser : (schema.tables.flatMap fun t =>
      ((t.columns.filter fun c => !c.is_nullable).map
        (checkConstraintNotNullRow t)) ++
      (t.check_constraints.map checkConstraintDeclaredRow)).countP
      (fun r => decide
        (rowCell checkConstraintsShape r kConstraintName =
           some (.str (CheckNotNullName T.name C.name)) ∧
         rowCell checkConstraintsShape r kCheckClause =
           some (.str (CheckNotNullClause C.name)))) = 1 := by
    refine countP_flatMap_unique hT (List.Nodup.of_map _ hnd) ?_ ?_
    · intro t ht hne
      have hname_ne : t.name ≠ T.name := fun he =>
        hne (List.inj_on_of_nodup_map hnd ht hT he)
      rw [List.countP_append]
      have hz1 : ((t.columns.filter fun c => !c.is_nullable).map
          (checkConstraintNotNullRow t)).countP (fun r => decide
          (rowCell checkConstraintsShape r kConstraintName =
             some (.str (CheckNotNullName T.name C.name)) ∧
           rowCell checkConstraintsShape r kCheckClause =
             some (.str (CheckNotNullClause C.name)))) = 0 := by
        rw [List.countP_eq_zero]
        intro r hr
        obtain ⟨c, hcf, rfl⟩ := List.mem_map.mp hr
        simp only [decide_eq_true_eq]
        rintro ⟨h1, -⟩
        rw [checkConstraintNotNullRow_name] at h1
        have h2 : CheckNotNullName t.name c.name =
            CheckNotNullName T.name C.name := by simpa using h1
        exact hname_ne (hinj t ht c (List.mem_of_mem_filter hcf) h2).1
      rw [hz1, hdecl0 t ht]
    · rw [List.countP_append]
      have h1 : ((T.columns.filter fun c => !c.is_nullable).map
          (checkConstraintNotNullRow T)).countP (fun r => decide
          (rowCell checkConstraintsShape r kConstraintName =
             some (.str (CheckNotNullName T.name C.name)) ∧
           rowCell checkConstraintsShape r kCheckClause =
             some (.str (CheckNotNullClause C.name)))) = 1 := by
        rw [List.countP_map]
        refine countP_eq_one_unique
          (List.mem_filter.mpr ⟨hC, by simp [hnn]⟩) ?_ ?_
          ((List.Nodup.of_map _ hcolnd).filter _)
        · simp [Function.comp, checkConstraintNotNullRow_name,
            checkConstraintNotNullRow_clause]
        · intro c hcf hp
          simp only [Function.comp, decide_eq_true_eq] at hp
          obtain ⟨hp1, -⟩ := hp
          rw [checkConstraintNotNullRow_name] at hp1
          have h2 : CheckNotNullName T.name c.name =
              CheckNotNullName T.name C.name := by simpa using hp1
          have h3 := (hinj T hT c (List.mem_of_mem_filter hcf) h2).2
          exact List.inj_on_of_nodup_map hcolnd
            (List.mem_of_mem_filter hcf) hC h3
      rw [h1, hdecl0 T hT]
  have hinfo0 : info_rows.countP (fun r => decide
      (rowCell checkConstraintsShape r kConstraintName =
         some (.str (CheckNotNullName T.name C.name)) ∧
       rowCell checkConstraintsShape r kCheckClause =
         some (.str (CheckNotNullClause C.name)))) = 0 := by
    rw [List.countP_eq_zero]
    intro r hr
    obtain ⟨st, hst, col, hcol, rfl⟩ := hinfo r hr
    simp only [decide_eq_true_eq]
    rintro ⟨h1, -⟩
    have hcell : rowCell checkConstraintsShape
        [.str "", .str kInformationSchema,
         .str (CheckNotNullName st.name col.1),
         .str (CheckNotNullClause col.1), .str kCommitted]
        kConstraintName = some (.str (CheckNotNullName st.name col.1)) :=
      rfl
    rw [hcell] at h1
    have h2 : CheckNotNullName st.name col.1 =
        CheckNotNullName T.name C.name := by simpa using h1
    exact hcats st hst col hcol h2
  rw [huser, hinfo0]

theorem tableConstraints_not_null_unique (schema : Schema)
    (cats : List SimpleTable) (registry : List ColumnsMetaEntry)
    (T : Table) (C : Column) (rows : List (List Value))
    (hT : T ∈ schema.tables) (hC : C ∈ T.columns)
    (hnn : C.is_nullable = false)
    (hnd : (schema.tables.map Table.name).Nodup)
    (hcolnd : (T.columns.map Column.name).Nodup)
    (hinj : ∀ t ∈ schema.tables, ∀ c ∈ t.columns,
      CheckNotNullName t.name c.name = CheckNotNullName T.name C.name →
      t.name = T.name ∧ c.name = C.name)
    (hdecl : ∀ t ∈ schema.tables, ∀ cc ∈ t.check_constraints,
      cc.name ≠ CheckNotNullName T.name C.name)
    (hcats : ∀ st ∈ cats, ∀ col ∈ st.columns,
      CheckNotNullName st.name col.1 ≠ CheckNotNullName T.name C.name)
    (hrows : fillTableConstraintsTable schema cats registry = some rows) :
    rows.countP (fun r => decide
      (rowCell tableConstraintsShape r kConstraintName =
         some (.str (CheckNotNullName T.name C.name)) ∧
       rowCell tableConstraintsShape r kConstraintType =
         some (.str kCheck))) = 1 := by
  obtain ⟨info_rows, hrw, hinfo⟩ :=
    fillTableConstraintsTable_decomp schema cats registry rows hrows
  subst hrw
  rw [List.countP_append]
  have hpk0 : ∀ t : Table,
      (List.countP (fun r => decide
        (rowCell tableConstraintsShape r kConstraintName =
           some (.str (CheckNotNullName T.name C.name)) ∧
         rowCell tableConstraintsShape r kConstraintType =
           some (.str kCheck)))
        [tableConstraintRow "" (PrimaryKeyName t.name) "" t.name
          kPrimaryKey]) = 0 := by
    intro t
    rw [List.countP_eq_zero]
    intro r hr
    rw [List.mem_singleton] at hr
    subst hr
    simp only [decide_eq_true_eq]
    rintro ⟨h1, -⟩
    rw [tableConstraintRow_name] at h1
    have h2 : PrimaryKeyName t.name = CheckNotNullName T.name C.name := by
      simpa using h1
    exact pk_name_ne_ck_name t.name T.name C.name h2
  have hdecl0 : ∀ t ∈ schema.tables,
      ((t.check_constraints.map fun cc =>
        tableConstraintRow "" cc.name "" t.name kCheck).countP
        (fun r => decide
          (rowCell tableConstraintsShape r kConstraintName =
             some (.str (CheckNotNullName T.name C.name)) ∧
           rowCell tableConstraintsShape r kConstraintType =
             some (.str kCheck)))) = 0 := by
    intro t ht
    rw [List.countP_eq_zero]
    intro r hr
    obtain ⟨cc, hcc, rfl⟩ := List.mem_map.mp hr
    simp only [decide_eq_true_eq]
    rintro ⟨h1, -⟩
    rw [tableConstraintRow_name] at h1
    have h2 : cc.name = CheckNotNullName T.name C.name := by simpa using h1
    exact hdecl t ht cc hcc h2
  have hfk0 : ∀ t : Table,
      ((t.foreign_keys.flatMap fun fk =>
        [tableConstraintRow "" fk.name "" t.name kForeignKey] ++
        (match fk.referenced_index with
         | some idx =>
             [tableConstraintRow "" idx.name "" fk.referenced_table_name
               kUnique]
         | none => [])).countP (fun r => decide
        (rowCell tableConstraintsShape r kConstraintName =
           some (.str (CheckNotNullName T.name C.name)) ∧
         rowCell tableConstraintsShape r kConstraintType =
           some (.str kCheck)))) = 0 := by
    intro t
    rw [List.countP_eq_zero]
    intro r hr
    obtain ⟨fk, hfk1, hr2⟩ := List.mem_flatMap.mp hr
    rcases List.mem_append.mp hr2 with h | h
    · rw [List.mem_singleton] at h
      subst h
      simp only [decide_eq_true_eq]
      rintro ⟨-, h2⟩
      rw [tableConstraintRow_type] at h2
      have : kForeignKey = kCheck := by simpa using h2
      exact absurd this (by decide)
    · cases hri : fk.referenced_index with
      | none => rw [hri] at h; cases h
      | some idx =>
          rw [hri] at h
          rw [List.mem_singleton] at h
          subst h
          simp only [decide_eq_true_eq]
          rintro ⟨-, h2⟩
          rw [tableConstraintRow_type] at h2
          have : kUnique = kCheck := by simpa using h2
          exact absurd this (by decide)
  have huser : (schema.tables.flatMap tableConstraintsUserRows).countP
      (fun r => decide
        (rowCell tableConstraintsShape r kConstraintName =
           some (.str (CheckNotNullName T.name C.name)) ∧
         rowCell tableConstraintsShape r kConstraintType =
           some (.str kCheck))) = 1 := by
    refine countP_flatMap_unique hT (List.Nodup.of_map _ hnd) ?_ ?_
    · intro t ht hne
      have hname_ne : t.name ≠ T.name := fun he =>
        hne (List.inj_on_of_nodup_map hnd ht hT he)
      unfold tableConstraintsUserRows
      simp only [List.countP_append]
      have hz1 : ((t.columns.filter fun c => !c.is_nullable).map fun c =>
          tableConstraintRow "" (CheckNotNullName t.name c.name) ""
            t.name kCheck).countP (fun r => decide
          (rowCell tableConstraintsShape r kConstraintName =
             some (.str (CheckNotNullName T.name C.name)) ∧
           rowCell tableConstraintsShape r kConstraintType =
             some (.str kCheck))) = 0 := by
        rw [List.countP_eq_zero]
        intro r hr
        obtain ⟨c, hcf, rfl⟩ := List.mem_map.mp hr
        simp only [decide_eq_true_eq]
        rintro ⟨h1, -⟩
        rw [tableConstraintRow_name] at h1
        have h2 : CheckNotNullName t.name c.name =
            CheckNotNullName T.name C.name := by simpa using h1
        exact hname_ne (hinj t ht c (List.mem_of_mem_filter hcf) h2).1
      rw [hpk0 t, hz1, hdecl0 t ht, hfk0 t]
    · unfold tableConstraintsUserRows
      simp only [List.countP_append]
      have h1 : ((T.columns.filter fun c => !c.is_nullable).map fun c =>
          tableConstraintRow "" (CheckNotNullName T.name c.name) ""
            T.name kCheck).countP (fun r => decide
          (rowCell tableConstraintsShape r kConstraintName =
             some (.str (CheckNotNullName T.name C.name)) ∧
           rowCell tableConstraintsShape r kConstraintType =
             some (.str kCheck))) = 1 := by
        rw [List.countP_map]
        refine countP_eq_one_unique
          (List.mem_filter.mpr ⟨hC, by simp [hnn]⟩) ?_ ?_
          ((List.Nodup.of_map _ hcolnd).filter _)
        · simp [Function.comp, tableConstraintRow_name,
            tableConstraintRow_type]
        · intro c hcf hp
          simp only [Function.comp, decide_eq_true_eq] at hp
          obtain ⟨hp1, -⟩ := hp
          rw [tableConstraintRow_name] at hp1
          have h2 : CheckNotNullName T.name c.name =
              CheckNotNullName T.name C.name := by simpa using hp1
          have h3 := (hinj T hT c (List.mem_of_mem_filter hcf) h2).2
          exact List.inj_on_of_nodup_map hcolnd
            (List.mem_of_mem_filter hcf) hC h3
      rw [hpk0 T, h1, hdecl0 T hT, hfk0 T]
  have hinfo0 : info_rows.countP (fun r => decide
      (rowCell tableConstraintsShape r kConstraintName =
         some (.str (CheckNotNullName T.name C.name)) ∧
       rowCell tableConstraintsShape r kConstraintType =
         some (.str kCheck))) = 0 := by
    rw [List.countP_eq_zero]
    intro r hr
    obtain ⟨st, hst, hcase⟩ := hinfo r hr
    rcases hcase with rfl | ⟨col, hcol, rfl⟩
    · simp only [decide_eq_true_eq]
      rintro ⟨-, h2⟩
      rw [tableConstraintRow_type] at h2
      have : kPrimaryKey = kCheck := by simpa using h2
      exact absurd this (by decide)
    · simp only [decide_eq_true_eq]
      rintro ⟨h1, -⟩
      rw [tableConstraintRow_name] at h1
      have h2 : CheckNotNullName st.name col.1 =
          CheckNotNullName T.name C.name := by simpa using h1
      exact hcats st hst col hcol h2
  rw [huser, hinfo0]

theorem constraintColumnUsage_not_null_unique (schema : Schema)
    (cats : List SimpleTable) (registry : List ColumnsMetaEntry)
    (index_registry : List IndexColumnsMetaEntry)
    (T : Table) (C : Column) (rows : List (List Value))
    (hT : T ∈ schema.tables) (hC : C ∈ T.columns)
    (hnn : C.is_nullable = false)
    (hnd : (schema.tables.map Table.name).Nodup)
    (hcolnd : (T.columns.map Column.name).Nodup)
    (hinj : ∀ t ∈ schema.tables, ∀ c ∈ t.columns,
      CheckNotNullName t.name c.name = CheckNotNullName T.name C.name →
      t.name = T.name ∧ c.name = C.name)
    (hdecl : ∀ t ∈ schema.tables, ∀ cc ∈ t.check_constraints,
      cc.name ≠ CheckNotNullName T.name C.name)
    (hfk : ∀ t ∈ schema.tables, ∀ fk ∈ t.foreign_keys,
      fk.name ≠ CheckNotNullName T.name C.name ∧
      ∀ idx, fk.referenced_index = some idx →
        idx.name ≠ CheckNotNullName T.name C.name)
    (hcats : ∀ st ∈ cats, ∀ col ∈ st.columns,
      CheckNotNullName st.name col.1 ≠ CheckNotNullName T.name C.name)
    (hrows : fillConstraintColumnUsageTable schema cats registry
      index_registry = some rows) :
    rows.countP (fun r => decide
      (rowCell constraintColumnUsageShape r kConstraintName =
         some (.str (CheckNotNullName T.name C.name)) ∧
       rowCell constraintColumnUsageShape r kColumnName =
         some (.str C.name))) = 1 := by
  obtain ⟨info_nn, hrw, hinfo⟩ := fillConstraintColumnUsageTable_decomp
    schema cats registry index_registry rows hrows
  subst hrw
  rw [List.countP_append, List.countP_append]
  have hpk0 : ∀ t : Table,
      ((t.primary_key.map fun kc =>
        constraintColumnUsageRow "" t.name kc.column.name ""
          (PrimaryKeyName t.name)).countP (fun r => decide
        (rowCell constraintColumnUsageShape r kConstraintName =
           some (.str (CheckNotNullName T.name C.name)) ∧
         rowCell constraintColumnUsageShape r kColumnName =
           some (.str C.name)))) = 0 := by
    intro t
    rw [List.countP_eq_zero]
    intro r hr
    obtain ⟨kc, hkc, rfl⟩ := List.mem_map.mp hr
    simp only [decide_eq_true_eq]
    rintro ⟨h1, -⟩
    rw [constraintColumnUsageRow_name] at h1
    have h2 : PrimaryKeyName t.name = CheckNotNullName T.name C.name := by
      simpa using h1
    exact pk_name_ne_ck_name t.name T.name C.name h2
  have hdecl0 : ∀ t ∈ schema.tables,
      ((t.check_constraints.flatMap fun cc =>
        cc.dependent_columns.map fun dc =>
          constraintColumnUsageRow "" t.name dc.name "" cc.name).countP
        (fun r => decide
          (rowCell constraintColumnUsageShape r kConstraintName =
             some (.str (CheckNotNullName T.name C.name)) ∧
           rowCell constraintColumnUsageShape r kColumnName =
             some (.str C.name)))) = 0 := by
    intro t ht
    rw [List.countP_eq_zero]
    intro r hr
    obtain ⟨cc, hcc, hr2⟩ := List.mem_flatMap.mp hr
    obtain ⟨dc, hdc, rfl⟩ := List.mem_map.mp hr2
    simp only [decide_eq_true_eq]
    rintro ⟨h1, -⟩
    rw [constraintColumnUsageRow_name] at h1
    have h2 : cc.name = CheckNotNullName T.name C.name := by simpa using h1
    exact hdecl t ht cc hcc h2
  have hfk0 : ∀ t ∈ schema.tables,
      ((t.foreign_keys.flatMap fun fk =>
        (fk.referenced_columns.map fun c =>
          constraintColumnUsageRow "" fk.referenced_table_name c.name ""
            fk.name) ++
        (match fk.referenced_index with
         | some idx =>
             idx.key_columns.map fun kc =>
               constraintColumnUsageRow "" fk.referenced_table_name
                 kc.column.name "" idx.name
         | none => [])).countP (fun r => decide
        (rowCell constraintColumnUsageShape r kConstraintName =
           some (.str (CheckNotNullName T.name C.name)) ∧
         rowCell constraintColumnUsageShape r kColumnName =
           some (.str C.name)))) = 0 := by
    intro t ht
    rw [List.countP_eq_zero]
    intro r hr
    obtain ⟨fk, hfk1, hr2⟩ := List.mem_flatMap.mp hr
    rcases List.mem_append.mp hr2 with h | h
    · obtain ⟨c, hc1, rfl⟩ := List.mem_map.mp h
      simp only [decide_eq_true_eq]
      rintro ⟨h1, -⟩
      rw [constraintColumnUsageRow_name] at h1
      have h2 : fk.name = CheckNotNullName T.name C.name := by
        simpa using h1
      exact (hfk t ht fk hfk1).1 h2
    · cases hri : fk.referenced_index with
      | none => rw [hri] at h; cases h
      | some idx =>
          rw [hri] at h
          obtain ⟨kc, hkc, rfl⟩ := List.mem_map.mp h
          simp only [decide_eq_true_eq]
          rintro ⟨h1, -⟩
          rw [constraintColumnUsageRow_name] at h1
          have h2 : idx.name = CheckNotNullName T.name C.name := by
            simpa using h1
          exact (hfk t ht fk hfk1).2 idx hri h2
  have huser : (schema.tables.flatMap
      constraintColumnUsageUserRows).countP (fun r => decide
      (rowCell constraintColumnUsageShape r kConstraintName =
         some (.str (CheckNotNullName T.name C.name)) ∧
       rowCell constraintColumnUsageShape r kColumnName =
         some (.str C.name))) = 1 := by
    refine countP_flatMap_unique hT (List.Nodup.of_map _ hnd) ?_ ?_
    · intro t ht hne
      have hname_ne : t.name ≠ T.name := fun he =>
        hne (List.inj_on_of_nodup_map hnd ht hT he)
      unfold constraintColumnUsageUserRows
      simp only [List.countP_append]
      have hz1 : ((t.columns.filter fun c => !c.is_nullable).map fun c =>
          constraintColumnUsageRow "" t.name c.name ""
            (CheckNotNullName t.name c.name)).countP (fun r => decide
          (rowCell constraintColumnUsageShape r kConstraintName =
             some (.str (CheckNotNullName T.name C.name)) ∧
           rowCell constraintColumnUsageShape r kColumnName =
             some (.str C.name))) = 0 := by
        rw [List.countP_eq_zero]
        intro r hr
        obtain ⟨c, hcf, rfl⟩ := List.mem_map.mp hr
        simp only [decide_eq_true_eq]
        rintro ⟨h1, -⟩
        rw [constraintColumnUsageRow_name] at h1
        have h2 : CheckNotNullName t.name c.name =
            CheckNotNullName T.name C.name := by simpa using h1
        exact hname_ne (hinj t ht c (List.mem_of_mem_filter hcf) h2).1
      rw [hpk0 t, hz1, hdecl0 t ht, hfk0 t ht]
    · unfold constraintColumnUsageUserRows
      simp only [List.countP_append]
      have h1 : ((T.columns.filter fun c => !c.is_nullable).map fun c =>
          constraintColumnUsageRow "" T.name c.name ""
            (CheckNotNullName T.name c.name)).countP (fun r => decide
          (rowCell constraintColumnUsageShape r kConstraintName =
             some (.str (CheckNotNullName T.name C.name)) ∧
           rowCell constraintColumnUsageShape r kColumnName =
             some (.str C.name))) = 1 := by
        rw [List.countP_map]
        refine countP_eq_one_unique
          (List.mem_filter.mpr ⟨hC, by simp [hnn]⟩) ?_ ?_
          ((List.Nodup.of_map _ hcolnd).filter _)
        · simp [Function.comp, constraintColumnUsageRow_name,
            constraintColumnUsageRow_column]
        · intro c hcf hp
          simp only [Function.comp, decide_eq_true_eq] at hp
          obtain ⟨hp1, -⟩ := hp
          rw [constraintColumnUsageRow_name] at hp1
          have h2 : CheckNotNullName T.name c.name =
              CheckNotNullName T.name C.name := by simpa using hp1
          have h3 := (hinj T hT c (List.mem_of_mem_filter hcf) h2).2
          exact List.inj_on_of_nodup_map hcolnd
            (List.mem_of_mem_filter hcf) hC h3
      rw [hpk0 T, h1, hdecl0 T hT, hfk0 T hT]
  have hinfopk : (cats.flatMap fun st =>
      st.columns.filterMap fun col =>
        (FindKeyColumnMetadata index_registry st.name col.1).map fun m =>
          constraintColumnUsageRow kInformationSchema st.name
            m.column_name kInformationSchema
            (PrimaryKeyName st.name)).countP (fun r => decide
      (rowCell constraintColumnUsageShape r kConstraintName =
         some (.str (CheckNotNullName T.name C.name)) ∧
       rowCell constraintColumnUsageShape r kColumnName =
         some (.str C.name))) = 0 := by
    rw [List.countP_eq_zero]
    intro r hr
    obtain ⟨st, hst, hr2⟩ := List.mem_flatMap.mp hr
    obtain ⟨col, hcol, hmap⟩ := List.mem_filterMap.mp hr2
    cases hfd : FindKeyColumnMetadata index_registry st.name col.1 with
    | none => rw [hfd] at hmap; cases hmap
    | some m =>
        rw [hfd] at hmap
        simp only [Option.map_some', Option.some.injEq] at hmap
        subst hmap
        simp only [decide_eq_true_eq]
        rintro ⟨h1, -⟩
        rw [constraintColumnUsageRow_name] at h1
        have h2 : PrimaryKeyName st.name =
            CheckNotNullName T.name C.name := by simpa using h1
        exact pk_name_ne_ck_name st.name T.name C.name h2
  have hinfonn : info_nn.countP (fun r => decide
      (rowCell constraintColumnUsageShape r kConstraintName =
         some (.str (CheckNotNullName T.name C.name)) ∧
       rowCell constraintColumnUsageShape r kColumnName =
         some (.str C.name))) = 0 := by
    rw [List.countP_eq_zero]
    intro r hr
    obtain ⟨st, hst, col, hcol, m, rfl⟩ := hinfo r hr
    simp only [decide_eq_true_eq]
    rintro ⟨h1, -⟩
    rw [constraintColumnUsageRow_name] at h1
    have h2 : CheckNotNullName st.name col.1 =
        CheckNotNullName T.name C.name := by simpa using h1
    exact hcats st hst col hcol h2
  rw [huser, hinfopk, hinfonn]

/-- C2: for every non-nullable column `C` of user table `T`, the catalog
holds exactly one CHECK_CONSTRAINTS row named `CK_IS_NOT_NULL_<T>_<C>`
with clause `<C> IS NOT NULL`, exactly one TABLE_CONSTRAINTS row with
that name and constraint type CHECK, and exactly one
CONSTRAINT_COLUMN_USAGE row with that name and column `C` — under
schema-validity hypotheses (distinct names, no other entity reusing the
generated constraint name). -/
theorem C2_not_null_constraint_rows (schema : Schema)
    (cats : List SimpleTable) (registry : List ColumnsMetaEntry)
    (index_registry : List IndexColumnsMetaEntry)
    (T : Table) (C : Column)
    (ccRows tcRows ccuRows : List (List Value))
    (hT : T ∈ schema.tables) (hC : C ∈ T.columns)
    (hnn : C.is_nullable = false)
    (hnd : (schema.tables.map Table.name).Nodup)
    (hcolnd : (T.columns.map Column.name).Nodup)
    (hinj : ∀ t ∈ schema.tables, ∀ c ∈ t.columns,
      CheckNotNullName t.name c.name = CheckNotNullName T.name C.name →
      t.name = T.name ∧ c.name = C.name)
    (hdecl : ∀ t ∈ schema.tables, ∀ cc ∈ t.check_constraints,
      cc.name ≠ CheckNotNullName T.name C.name)
    (hfk : ∀ t ∈ schema.tables, ∀ fk ∈ t.foreign_keys,
      fk.name ≠ CheckNotNullName T.name C.name ∧
      ∀ idx, fk.referenced_index = some idx →
        idx.name ≠ CheckNotNullName T.name C.name)
    (hcats : ∀ st ∈ cats, ∀ col ∈ st.columns,
      CheckNotNullName st.name col.1 ≠ CheckNotNullName T.name C.name)
    (h1 : fillCheckConstraintsTable schema cats registry = some ccRows)
    (h2 : fillTableConstraintsTable schema cats registry = some tcRows)
    (h3 : fillConstraintColumnUsageTable schema cats registry
      index_registry = some ccuRows) :
    ccRows.countP (fun r => decide
      (rowCell checkConstraintsShape r kConstraintName =
         some (.str (CheckNotNullName T.name C.name)) ∧
       rowCell checkConstraintsShape r kCheckClause =
         some (.str (CheckNotNullClause C.name)))) = 1 ∧
    tcRows.countP (fun r => decide
      (rowCell tableConstraintsShape r kConstraintName =
         some (.str (CheckNotNullName T.name C.name)) ∧
       rowCell tableConstraintsShape r kConstraintType =
         some (.str kCheck))) = 1 ∧
    ccuRows.countP (fun r => decide
      (rowCell constraintColumnUsageShape r kConstraintName =
         some (.str (CheckNotNullName T.name C.name)) ∧
       rowCell constraintColumnUsageShape r kColumnName =
         some (.str C.name))) = 1 :=
  ⟨checkConstraints_not_null_unique schema cats registry T C ccRows
     hT hC hnn hnd hcolnd hinj hdecl hcats h1,
   tableConstraints_not_null_unique schema cats registry T C tcRows
     hT hC hnn hnd hcolnd hinj hdecl hcats h2,
   constraintColumnUsage_not_null_unique schema cats registry
     index_registry T C ccuRows hT hC hnn hnd hcolnd hinj hdecl hfk
     hcats h3⟩

/-- Witness for C2 at the concrete `usersSchema` and its non-nullable
column `name`. -/
theorem C2_not_null_constraint_rows_witness :
    ((fillCheckConstraintsTable usersSchema [] []).getD []).countP
      (fun r => decide
      (rowCell checkConstraintsShape r kConstraintName =
         some (.str (CheckNotNullName usersTable.name
           usersNameColumn.name)) ∧
       rowCell checkConstraintsShape r kCheckClause =
         some (.str (CheckNotNullClause usersNameColumn.name)))) = 1 ∧
    ((fillTableConstraintsTable usersSchema [] []).getD []).countP
      (fun r => decide
      (rowCell tableConstraintsShape r kConstraintName =
         some (.str (CheckNotNullName usersTable.name
           usersNameColumn.name)) ∧
       rowCell tableConstraintsShape r kConstraintType =
         some (.str kCheck))) = 1 ∧
    ((fillConstraintColumnUsageTable usersSchema [] [] []).getD
      []).countP (fun r => decide
      (rowCell constraintColumnUsageShape r kConstraintName =
         some (.str (CheckNotNullName usersTable.name
           usersNameColumn.name)) ∧
       rowCell constraintColumnUsageShape r kColumnName =
         some (.str usersNameColumn.name))) = 1 :=
  C2_not_null_constraint_rows usersSchema [] [] [] usersTable
    usersNameColumn _ _ _ (by decide) (by decide) (by decide) (by decide)
    (by decide) (by decide) (by decide) (by decide) (by decide)
    (by decide) (by decide) (by decide)

end ISC
